import Mathlib

/-!
Verification of the IFSCee C-visualization pipeline against its
specification.  The JavaScript sources (lexer.js, the parser module, the
interpreter module, state.js) are shallowly embedded: JS strings are Lean
`String`s (walked as `List Char` by the scanner), JS numbers used as source
positions are `Int`, synthetic machine addresses are `Nat`, fallible code
returns `Except`/`Option`, and the mutable `AppState` is threaded
explicitly.  Loops whose termination is not structural (the regex scanning
loop, the recursive-descent parser) take an explicit fuel argument;
exhausted fuel is reported as `none`/an error, and termination is proved as
a theorem where a claim needs it.
-/

set_option maxRecDepth 10000

/-- `Token` from state.js: `{type, value, line, column}`. -/
structure Token where
  type : String
  value : String
  line : Int
  column : Int
deriving DecidableEq, Repr

namespace Lexer

/-- Keyword set from lexer.js `tokenDefinitions.keywords`. -/
def keywords : List String :=
  ["auto", "break", "case", "char", "const", "continue", "default", "do",
   "double", "else", "enum", "extern", "float", "for", "goto", "if",
   "inline", "int", "long", "register", "restrict", "return", "short",
   "signed", "sizeof", "static", "struct", "switch", "typedef", "union",
   "unsigned", "void", "volatile", "while", "_Bool", "_Complex", "_Imaginary"]

/-- Standard library function names from lexer.js `tokenDefinitions.stdFunctions`. -/
def stdFunctions : List String :=
  ["printf", "scanf", "malloc", "free", "calloc", "realloc", "strlen",
   "strcpy", "strcat", "strcmp", "fopen", "fclose", "fread", "fwrite",
   "fprintf", "fscanf", "fgets", "fputs", "fseek", "ftell", "rewind"]

/-- Arithmetic operators from lexer.js `tokenDefinitions.operators.arithmetic`. -/
def operatorsArithmetic : List String := ["+", "-", "*", "/", "%", "++", "--"]

/-- Relational operators from lexer.js. -/
def operatorsRelational : List String := ["==", "!=", ">", "<", ">=", "<="]

/-- Logical operators from lexer.js. -/
def operatorsLogical : List String := ["&&", "||", "!"]

/-- Bitwise operators from lexer.js. -/
def operatorsBitwise : List String := ["&", "|", "^", "~", "<<", ">>"]

/-- Assignment operators from lexer.js. -/
def operatorsAssignment : List String :=
  ["=", "+=", "-=", "*=", "/=", "%=", "&=", "|=", "^=", "<<=", ">>="]

/-- Punctuation set from lexer.js `tokenDefinitions.punctuation`. -/
def punctuationSet : List String :=
  ["\x7b", "\x7d", "(", ")", "[", "]", ";", ",", ".", "->", ":", "?", "<", ">"]

/-- lexer.js `isTokenOfType(value, ...)` specialised to the operator branch of
`tokenize`: operator/punctuation classification of a matched operator text
(tokenize lines 284-294).  Returns the empty string when no set contains the
text, in which case `tokenize` pushes no token. -/
def classifyOp (v : String) : String :=
  if operatorsArithmetic.contains v || operatorsRelational.contains v ||
     operatorsLogical.contains v || operatorsBitwise.contains v ||
     operatorsAssignment.contains v then "operator"
  else if punctuationSet.contains v then "punctuation"
  else ""

/-- Word classification of `tokenize` (lines 295-304): keyword, standard
library function, or identifier. -/
def classifyWord (v : String) : String :=
  if keywords.contains v then "keyword"
  else if stdFunctions.contains v then "function"
  else "identifier"

/-- JS `\w` character class (ASCII letters, digits, underscore). -/
def isWordChar (c : Char) : Bool := c.isAlphanum || c = '_'

/-- Offsets of newline characters, as collected at the start of `tokenize`. -/
def nlAux : List Char → Nat → List Nat
  | [], _ => []
  | c :: rest, i => if c = '\n' then i :: nlAux rest (i + 1) else nlAux rest (i + 1)

/-- `newlinePositions` array of `tokenize`. -/
def newlinePositions (cs : List Char) : List Nat := nlAux cs 0

/-- Loop body of lexer.js `getLineColumnFromPos`: advance `lineIdx` while the
next recorded newline offset is below `pos`, tracking the current line start. -/
def lineColAux : List Nat → Nat → Int → Int → Int × Int
  | [], pos, lineIdx, lineStart => (lineIdx + 1, (pos : Int) - lineStart + 1)
  | n :: rest, pos, lineIdx, lineStart =>
    if (n : Int) < (pos : Int) then lineColAux rest pos (lineIdx + 1) ((n : Int) + 1)
    else (lineIdx + 1, (pos : Int) - lineStart + 1)

/-- lexer.js `getLineColumnFromPos(pos, newlinePositions)`: 1-based line and
column of a character offset. -/
def getLineColumnFromPos (pos : Nat) (nls : List Nat) : Int × Int :=
  lineColAux nls pos 0 0

/-- The kind of regex alternative that matched (the five capture groups of the
scanning regex of `tokenize`). -/
inductive MKind where
  | comment
  | number
  | strlit
  | opr
  | word
deriving DecidableEq, Repr

/-- Offset of the first occurrence of the closing sequence `*/`, for the
non-greedy block comment alternative. -/
def findStarSlash : List Char → Option Nat
  | '*' :: '/' :: _ => some 0
  | _ :: rest => (findStarSlash rest).map (· + 1)
  | [] => none

/-- Length matched by the comment group `\/\/[^\n]*|\/\*[\s\S]*?\*\/` at the
current position, if it matches.  An unterminated block comment does not
match (the regex then falls through to the operator alternative). -/
def commentLen (cs : List Char) : Option Nat :=
  match cs with
  | '/' :: '/' :: rest => some (2 + (rest.takeWhile (fun c => c ≠ '\n')).length)
  | '/' :: '*' :: rest => (findStarSlash rest).map (fun k => 2 + k + 2)
  | _ => none

/-- Length matched by the number group `\d+\.\d+|\d+|0x[0-9a-fA-F]+`.
Alternation is ordered: a decimal like `1.5` is preferred, otherwise the
greedy digit run.  (The hex alternative is dead code in the source: any text
starting with `0` already matches the `\d+` alternative first.) -/
def numberLen (cs : List Char) : Option Nat :=
  let d1 := (cs.takeWhile Char.isDigit).length
  if d1 = 0 then none
  else
    match cs.drop d1 with
    | '.' :: rest2 =>
      let d2 := (rest2.takeWhile Char.isDigit).length
      if 0 < d2 then some (d1 + 1 + d2) else some d1
    | _ => some d1

/-- JS line terminators as far as the regex `.` is concerned. -/
def isLineTerm (c : Char) : Bool := c = '\n' || c = '\r'

/-- Body of a string/char literal after the opening quote `q`:
`(?:\\.|[^q\\])*q`.  Returns the number of characters consumed including the
closing quote, or `none` when the literal is unterminated. -/
def strBody (q : Char) : List Char → Option Nat
  | [] => none
  | c :: rest =>
    if c = q then some 1
    else if c = '\\' then
      match rest with
      | [] => none
      | d :: rest2 => if isLineTerm d then none else (strBody q rest2).map (· + 2)
    else (strBody q rest).map (· + 1)

/-- Length matched by the string/character literal group. -/
def stringLen (cs : List Char) : Option Nat :=
  match cs with
  | '"' :: rest => (strBody '"' rest).map (· + 1)
  | '\x27' :: rest => (strBody '\x27' rest).map (· + 1)
  | _ => none

/-- The multi-character operator alternatives of the operator group, in the
exact alternation order of the regex (so `<<` is tried before `<<=`, making
the three-character entries unreachable, exactly as in the source). -/
def twoCharOps : List String :=
  ["++", "--", "==", "!=", "<=", ">=", "&&", "||", "<<", ">>",
   "+=", "-=", "*=", "/=", "%=", "&=", "|=", "^=", "<<=", ">>=", "->"]

/-- The single-character class `[+\-*\/%=<>&|^!~.,;:?\[\]{}()]` of the
operator group. -/
def singleOpChars : List Char :=
  ['+', '-', '*', '/', '%', '=', '<', '>', '&', '|', '^', '!', '~',
   '.', ',', ';', ':', '?', '[', ']', '\x7b', '\x7d', '(', ')']

/-- Length matched by the operator/punctuation group. -/
def opLen (cs : List Char) : Option Nat :=
  match twoCharOps.find? (fun p => p.data.isPrefixOf cs) with
  | some p => some p.length
  | none =>
    match cs with
    | c :: _ => if singleOpChars.contains c then some 1 else none
    | [] => none

/-- Length matched by the word group `\w+`. -/
def wordLen (cs : List Char) : Option Nat :=
  let n := (cs.takeWhile isWordChar).length
  if n = 0 then none else some n

/-- One step of the scanning regex at the current position: the five
alternatives are tried in the order of the capture groups
(comments, numbers, strings, operators, words). -/
def nextMatch (cs : List Char) : Option (MKind × Nat) :=
  match commentLen cs with
  | some n => some (MKind.comment, n)
  | none =>
    match numberLen cs with
    | some n => some (MKind.number, n)
    | none =>
      match stringLen cs with
      | some n => some (MKind.strlit, n)
      | none =>
        match opLen cs with
        | some n => some (MKind.opr, n)
        | none =>
          match wordLen cs with
          | some n => some (MKind.word, n)
          | none => none

/-- A raw match produced by the scanning loop: start offset, the capture
group that matched, and the matched text. -/
structure RawMatch where
  pos : Nat
  kind : MKind
  text : List Char
deriving DecidableEq, Repr

/-- The `while ((match = regex.exec(code)) !== null)` loop of `tokenize`:
`regex.exec` finds the leftmost match at or after the current position (a
position where no alternative matches is skipped), and the loop resumes
after the end of each match.  `fuel` models the a-priori unbounded
iteration; `none` means the fuel ran out before the input was exhausted. -/
def scanAux : Nat → Nat → List Char → Option (List RawMatch)
  | _, _, [] => some []
  | 0, _, _ :: _ => none
  | fuel + 1, pos, cs =>
    match nextMatch cs with
    | some (k, n) =>
      (scanAux fuel (pos + n) (cs.drop n)).map
        (fun ms => { pos := pos, kind := k, text := cs.take n } :: ms)
    | none => scanAux fuel (pos + 1) (cs.drop 1)

/-- `code.split('\n')`, keeping empty segments. -/
def splitNl : List Char → List (List Char)
  | [] => [[]]
  | '\n' :: rest => [] :: splitNl rest
  | c :: rest =>
    match splitNl rest with
    | l :: ls => (c :: l) :: ls
    | [] => [[c]]

/-- JS `String.prototype.trim()`. -/
def trim (cs : List Char) : List Char :=
  ((cs.dropWhile Char.isWhitespace).reverse.dropWhile Char.isWhitespace).reverse

/-- JS `line.startsWith('#')` (applied to the trimmed line). -/
def startsWithHash : List Char → Bool
  | '#' :: _ => true
  | _ => false

/-- lexer.js `findDirectivePosition`: sum of the lengths (plus one newline
character) of the preceding lines, plus the leading indentation of the line
holding the directive. -/
def findDirectivePosition (lines : List (List Char)) (lineIndex : Nat) : Nat :=
  ((lines.take lineIndex).map (fun l => l.length + 1)).sum +
    (match lines[lineIndex]? with
     | some l => (l.takeWhile Char.isWhitespace).length
     | none => 0)

/-- The directive-collection loop of `tokenize`: every line whose trimmed
text starts with `#` is recorded as (trimmed text, start offset).  The loop
is modelled structurally over the remaining lines, with `i` the index of the
current line in the full list. -/
def collectDirectivesAux (lines : List (List Char)) : Nat → List (List Char) →
    List (List Char × Nat)
  | _, [] => []
  | i, l :: rest =>
    if startsWithHash (trim l) then
      (trim l, findDirectivePosition lines i) :: collectDirectivesAux lines (i + 1) rest
    else collectDirectivesAux lines (i + 1) rest

/-- All preprocessor-directive lines of the source, with their offsets. -/
def collectDirectives (lines : List (List Char)) : List (List Char × Nat) :=
  collectDirectivesAux lines 0 lines

/-- lexer.js `isWithinDirective(pos, directivePositions)`. -/
def isWithinDirective (pos : Nat) (spans : List (Nat × Nat)) : Bool :=
  spans.any (fun se => se.1 ≤ pos && pos < se.2)

/-- JS `s.substring(a, b)` on a char list (clamping, swapping when `a > b`). -/
def jsSubstring (cs : List Char) (a b : Int) : List Char :=
  let a' := (max a 0).toNat
  let b' := (max b 0).toNat
  let lo := min a' b'
  let hi := max a' b'
  (cs.take hi).drop lo

/-- JS `s.indexOf(pat, start)` (first occurrence at index ≥ `start`; `-1`
when absent). -/
def idxAux (pat : List Char) : Nat → List Char → Option Nat
  | i, cs =>
    if pat.isPrefixOf cs then some i
    else
      match cs with
      | [] => none
      | _ :: rest => idxAux pat (i + 1) rest

/-- JS `s.indexOf(pat, start)` as an `Int`. -/
def indexOfSubFrom (cs pat : List Char) (start : Nat) : Int :=
  let start' := min start cs.length
  match idxAux pat start' (cs.drop start') with
  | some i => (i : Int)
  | none => -1

/-- JS `s.lastIndexOf(c)`. -/
def lastIdxAux (ch : Char) : List Char → Nat → Option Nat → Option Nat
  | [], _, acc => acc
  | c :: rest, i, acc => lastIdxAux ch rest (i + 1) (if c = ch then some i else acc)

/-- JS `s.lastIndexOf(c)` as an `Int` (`-1` when absent). -/
def lastIndexOfChar (cs : List Char) (ch : Char) : Int :=
  match lastIdxAux ch cs 0 none with
  | some i => (i : Int)
  | none => -1

/-- JS split(/\s+/, 2) applied to an already-trimmed string (the `#define`
argument processing of `tokenize`). -/
def splitWsLimit2 (cs : List Char) : List (List Char) :=
  if cs.isEmpty then [[]]
  else
    let first := cs.takeWhile (fun c => !c.isWhitespace)
    let rest := (cs.drop first.length).dropWhile Char.isWhitespace
    if rest.isEmpty then [first] else [first, rest.takeWhile (fun c => !c.isWhitespace)]

/-- The per-directive token emission of `tokenize` (lines 189-249): a
`preprocessor` token for the command word and, for `#include`/`#define`,
secondary tokens for the nested filename / macro name and value. -/
def directiveTokens (nls : List Nat) (d : List Char × Nat) : List Token :=
  let text := d.1
  let start := d.2
  let command := text.takeWhile (fun c => !c.isWhitespace)
  let lc := getLineColumnFromPos start nls
  let line := lc.1
  let column := lc.2
  let commandTok : Token := ⟨"preprocessor", String.mk command, line, column⟩
  if command = "#include".data then
    let rest := trim (text.drop 8)
    let includePos := column + (command.length : Int)
    if startsWithHash rest = false ∧ rest.take 1 = ['<'] ∧ rest.contains '>' then
      let fileName := (rest.drop 1).takeWhile (fun c => c ≠ '>')
      let leftBracketPos := includePos + indexOfSubFrom text ['<'] 8 - 8
      let fileNamePos := leftBracketPos + 1
      let rightBracketPos := fileNamePos + (fileName.length : Int)
      [commandTok,
       ⟨"punctuation", "<", line, leftBracketPos⟩,
       ⟨"identifier", String.mk fileName, line, fileNamePos⟩,
       ⟨"punctuation", ">", line, rightBracketPos⟩]
    else if rest.take 1 = ['"'] ∧ (rest.drop 1).contains '"' then
      let fileName := jsSubstring rest 1 (lastIndexOfChar rest '"')
      let leftQuotePos := includePos + indexOfSubFrom text ['"'] 8 - 8
      let fileNamePos := leftQuotePos + 1
      let rightQuotePos := fileNamePos + (fileName.length : Int)
      [commandTok,
       ⟨"punctuation", "\"", line, leftQuotePos⟩,
       ⟨"identifier", String.mk fileName, line, fileNamePos⟩,
       ⟨"punctuation", "\"", line, rightQuotePos⟩]
    else [commandTok]
  else if command = "#define".data then
    let parts := splitWsLimit2 (trim (text.drop 7))
    match parts with
    | [] => [commandTok]
    | macroName :: partsRest =>
      let macroNamePos := column + indexOfSubFrom text macroName 7
      let nameTok : Token := ⟨"identifier", String.mk macroName, line, macroNamePos⟩
      match partsRest with
      | [] => [commandTok, nameTok]
      | macroValue :: _ =>
        let macroValuePos := macroNamePos + (macroName.length : Int) + 1
        [commandTok, nameTok, ⟨"literal", String.mk macroValue, line, macroValuePos⟩]
  else [commandTok]

/-- Token construction for one raw match of the scanning loop
(`tokenize` lines 269-309): comments are discarded, numbers and string
literals become `literal` tokens, operator matches are classified (and
dropped when the classification comes back empty), words are classified as
keyword / standard function / identifier. -/
def matchToken (nls : List Nat) (m : RawMatch) : Option Token :=
  let lc := getLineColumnFromPos m.pos nls
  match m.kind with
  | MKind.comment => none
  | MKind.number => some ⟨"literal", String.mk m.text, lc.1, lc.2⟩
  | MKind.strlit => some ⟨"literal", String.mk m.text, lc.1, lc.2⟩
  | MKind.opr =>
    let t := classifyOp (String.mk m.text)
    if t = "" then none else some ⟨t, String.mk m.text, lc.1, lc.2⟩
  | MKind.word => some ⟨classifyWord (String.mk m.text), String.mk m.text, lc.1, lc.2⟩

/-- The comparator of the final `tokens.sort(...)`: ascending `(line, column)`. -/
def leTokP (a b : Token) : Prop :=
  a.line < b.line ∨ (a.line = b.line ∧ a.column ≤ b.column)

instance : DecidablePred fun ab : Token × Token => leTokP ab.1 ab.2 :=
  fun _ => by unfold leTokP; infer_instance

instance (a b : Token) : Decidable (leTokP a b) := by unfold leTokP; infer_instance

/-- Insertion into a sorted list (model of the stable JS `Array.sort`). -/
def insertTok (x : Token) : List Token → List Token
  | [] => [x]
  | y :: ys => if leTokP x y then x :: y :: ys else y :: insertTok x ys

/-- The final `tokens.sort` of `tokenize`, modelled as a stable insertion
sort with the source comparator. -/
def sortToks : List Token → List Token
  | [] => []
  | x :: xs => insertTok x (sortToks xs)

/-- lexer.js `tokenize()`: directive pre-pass, regex scanning pass (with
matches starting inside a directive span skipped), and the final positional
sort.  Returns `none` only when the scanning fuel (one unit per character of
the input) runs out; `tokenize_total` below proves that never happens. -/
def tokenize (code : String) : Option (List Token) :=
  let cs := code.data
  let nls := newlinePositions cs
  let lines := splitNl cs
  let dirs := collectDirectives lines
  let spans := dirs.map (fun d => (d.2, d.2 + d.1.length))
  let dirToks := dirs.foldr (fun d acc => directiveTokens nls d ++ acc) []
  match scanAux cs.length 0 cs with
  | none => none
  | some ms =>
    let scanToks := ms.filterMap
      (fun m => if isWithinDirective m.pos spans then none else matchToken nls m)
    some (sortToks (dirToks ++ scanToks))

end Lexer

/-- `ASTNode` from state.js `{type, value, children}`, together with the
extra attributes the parser attaches to particular nodes
(`returnType`/`parameters` on function definitions, `isPointer` on
variable declarators). -/
inductive ASTNode where
  | mk (type : String) (value : Option String) (children : List ASTNode)
       (returnType : Option String) (parameters : List (String × String))
       (isPointer : Bool)

/-- Node kind tag. -/
def ASTNode.type : ASTNode → String
  | .mk t _ _ _ _ _ => t

/-- Node value. -/
def ASTNode.value : ASTNode → Option String
  | .mk _ v _ _ _ _ => v

/-- Node children. -/
def ASTNode.children : ASTNode → List ASTNode
  | .mk _ _ cs _ _ _ => cs

/-- Plain node constructor (`new ASTNode(type, value, children)`). -/
def node (t : String) (v : Option String) (cs : List ASTNode) : ASTNode :=
  ASTNode.mk t v cs none [] false

namespace Parser

/-- Assignment operator list from the parser constructor
(`this.operators.assignment`). -/
def assignmentOps : List String :=
  ["=", "+=", "-=", "*=", "/=", "%=", "&=", "|=", "^=", "<<=", ">>="]

/-- `getCurrentToken()`. -/
def getCurrentToken (tokens : List Token) (i : Nat) : Option Token := tokens[i]?

/-- `checkType(type)`. -/
def checkType (tokens : List Token) (i : Nat) (t : String) : Bool :=
  match getCurrentToken tokens i with
  | some tok => tok.type = t
  | none => false

/-- `checkValue(value)`. -/
def checkValue (tokens : List Token) (i : Nat) (v : String) : Bool :=
  match getCurrentToken tokens i with
  | some tok => tok.value = v
  | none => false

/-- `consume(type, value)`: returns the token and the advanced index, or a
descriptive error. -/
def consume (tokens : List Token) (i : Nat) (t : String) (v : Option String) :
    Except String (Token × Nat) :=
  match getCurrentToken tokens i with
  | none => Except.error ("Expected token of type " ++ t ++ ", but reached end of tokens")
  | some tok =>
    if tok.type = t ∧ (v = none ∨ v = some tok.value) then Except.ok (tok, i + 1)
    else
      Except.error ("Expected token of type " ++ t ++ ", but found " ++ tok.type ++
        " " ++ tok.value ++ " at line " ++ toString tok.line)

/-- `tryConsume(type, value)`: the advanced index on a match, `none` otherwise. -/
def tryConsume (tokens : List Token) (i : Nat) (t : String) (v : Option String) :
    Option (Token × Nat) :=
  match getCurrentToken tokens i with
  | some tok =>
    if tok.type = t ∧ (v = none ∨ v = some tok.value) then some (tok, i + 1) else none
  | none => none

/-- The lookahead loop of `parseTypeDeclaration`: scan forward tracking
parenthesis nesting; a `{` at depth 0 means a function definition, a `;` at
depth 0 a variable declaration (the JS default when the loop falls off the
end is `false`). -/
def scanAheadIsFunction : List Token → Int → Bool
  | [], _ => false
  | t :: rest, nested =>
    let nested := if t.value = "(" then nested + 1
                  else if t.value = ")" then nested - 1 else nested
    if nested = 0 ∧ t.value = "\x7b" then true
    else if nested = 0 ∧ t.value = ";" then false
    else scanAheadIsFunction rest nested

mutual

/-- The statement-collection loop of `parseProgram`. -/
def parseProgramLoop : Nat → List Token → Nat → List ASTNode →
    Except String (ASTNode × Nat)
  | 0, _, _, _ => Except.error "out of fuel"
  | f + 1, tokens, i, acc =>
    match getCurrentToken tokens i with
    | none => Except.ok (node "program" none acc, i)
    | some tok =>
      if checkType tokens i "preprocessor" then do
        let (d, i2) ← parsePreprocessorDirective f tokens i
        parseProgramLoop f tokens i2 (acc ++ [d])
      else if checkType tokens i "keyword" then do
        let (d, i2) ← parseTypeDeclaration f tokens i
        parseProgramLoop f tokens i2 (acc ++ [d])
      else
        Except.error ("Unexpected token in global scope: " ++ tok.type ++ " " ++
          tok.value ++ " at line " ++ toString tok.line)
termination_by structural f _ _ _ => f

/-- `parsePreprocessorDirective()`. -/
def parsePreprocessorDirective : Nat → List Token → Nat → Except String (ASTNode × Nat)
  | 0, _, _ => Except.error "out of fuel"
  | f + 1, tokens, i => do
    let _ := f
    let (tok, i2) ← consume tokens i "preprocessor" none
    Except.ok (node "preprocessor_directive" (some tok.value) [], i2)

/-- `parseTypeDeclaration()`: consume the type keyword, look ahead to
disambiguate function vs variable declaration. -/
def parseTypeDeclaration : Nat → List Token → Nat → Except String (ASTNode × Nat)
  | 0, _, _ => Except.error "out of fuel"
  | f + 1, tokens, i => do
    let (typeToken, i2) ← consume tokens i "keyword" none
    if scanAheadIsFunction (tokens.drop i2) 0 then
      parseFunctionDefinition f tokens i2 typeToken.value
    else
      parseVariableDeclaration f tokens i2 typeToken.value

/-- The parameter do-while loop of `parseFunctionDefinition`.  A token that
is neither a keyword nor `)` makes the JS loop spin forever; here that
surfaces as fuel exhaustion. -/
def parseParamLoop : Nat → List Token → Nat → List (String × String) →
    Except String (List (String × String) × Nat)
  | 0, _, _, _ => Except.error "out of fuel"
  | f + 1, tokens, i, acc =>
    if checkType tokens i "keyword" then do
      let (ptok, i2) ← consume tokens i "keyword" none
      let (pname, i3) :=
        match tryConsume tokens i2 "identifier" none with
        | some (ntok, i3) => (ntok.value, i3)
        | none => ("", i2)
      let i4 := match tryConsume tokens i3 "punctuation" (some ",") with
        | some (_, i4) => i4
        | none => i3
      let acc2 := acc ++ [(ptok.value, pname)]
      if checkValue tokens i4 ")" then Except.ok (acc2, i4)
      else parseParamLoop f tokens i4 acc2
    else
      if checkValue tokens i ")" then Except.ok (acc, i)
      else parseParamLoop f tokens i acc
termination_by structural f _ _ _ => f

/-- `parseFunctionDefinition(returnType)`. -/
def parseFunctionDefinition : Nat → List Token → Nat → String →
    Except String (ASTNode × Nat)
  | 0, _, _, _ => Except.error "out of fuel"
  | f + 1, tokens, i, returnType => do
    let (nameToken, i2) ← consume tokens i "identifier" none
    let (_, i3) ← consume tokens i2 "punctuation" (some "(")
    let (parameters, i4) ←
      if checkValue tokens i3 ")" then Except.ok (([] : List (String × String)), i3)
      else parseParamLoop f tokens i3 []
    let (_, i5) ← consume tokens i4 "punctuation" (some ")")
    let (body, i6) ← parseCompoundStatement f tokens i5
    Except.ok (ASTNode.mk "function_definition" (some nameToken.value) [body]
      (some returnType) parameters false, i6)

/-- The statement loop of `parseCompoundStatement`. -/
def parseCompoundLoop : Nat → List Token → Nat → List ASTNode →
    Except String (List ASTNode × Nat)
  | 0, _, _, _ => Except.error "out of fuel"
  | f + 1, tokens, i, acc =>
    if checkValue tokens i "\x7d" then Except.ok (acc, i)
    else if checkType tokens i "keyword" then
      match getCurrentToken tokens i with
      | some tok =>
        if ["if", "for", "while", "do", "switch", "return"].contains tok.value then do
          let (s, i2) ← parseControlFlowStatement f tokens i
          parseCompoundLoop f tokens i2 (acc ++ [s])
        else do
          -- the source calls parseVariableDeclaration(token.value) WITHOUT
          -- consuming the keyword token first
          let (s, i2) ← parseVariableDeclaration f tokens i tok.value
          parseCompoundLoop f tokens i2 (acc ++ [s])
      | none => Except.error "unreachable: checkType keyword guaranteed a token"
    else do
      let (s, i2) ← parseExpressionStatement f tokens i
      parseCompoundLoop f tokens i2 (acc ++ [s])
termination_by structural f _ _ _ => f

/-- `parseCompoundStatement()`. -/
def parseCompoundStatement : Nat → List Token → Nat → Except String (ASTNode × Nat)
  | 0, _, _ => Except.error "out of fuel"
  | f + 1, tokens, i => do
    let (_, i2) ← consume tokens i "punctuation" (some "\x7b")
    let (stmts, i3) ← parseCompoundLoop f tokens i2 []
    let (_, i4) ← consume tokens i3 "punctuation" (some "\x7d")
    Except.ok (node "compound_statement" none stmts, i4)
termination_by structural f _ _ => f

/-- One declarator of `parseVariableDeclaration` (the body of its do-while
loop, without the leading comma handling). -/
def parseOneVariable : Nat → List Token → Nat → Except String (ASTNode × Nat)
  | 0, _, _ => Except.error "out of fuel"
  | f + 1, tokens, i => do
    let (value, isPointer, i2) ←
      if checkType tokens i "identifier" then do
        let (ntok, i2) ← consume tokens i "identifier" none
        Except.ok (some ntok.value, false, i2)
      else if checkValue tokens i "*" then do
        let (_, i2) ← consume tokens i "operator" (some "*")
        let (ntok, i3) ← consume tokens i2 "identifier" none
        Except.ok (some ntok.value, true, i3)
      else
        Except.ok ((none : Option String), false, i)
    if checkValue tokens i2 "=" then do
      let (_, i3) ← consume tokens i2 "operator" (some "=")
      let (valueNode, i4) ← parseExpression f tokens i3
      Except.ok (ASTNode.mk "variable" value [valueNode] none [] isPointer, i4)
    else
      Except.ok (ASTNode.mk "variable" value [] none [] isPointer, i2)

/-- The do-while declarator loop of `parseVariableDeclaration`. -/
def parseVarDeclLoop : Nat → List Token → Nat → List ASTNode →
    Except String (List ASTNode × Nat)
  | 0, _, _, _ => Except.error "out of fuel"
  | f + 1, tokens, i, acc => do
    let (varNode, i2) ← parseOneVariable f tokens i
    let acc2 := acc ++ [varNode]
    if checkValue tokens i2 "," then do
      let (_, i3) ← consume tokens i2 "punctuation" (some ",")
      parseVarDeclLoop f tokens i3 acc2
    else Except.ok (acc2, i2)
termination_by structural f _ _ _ => f

/-- `parseVariableDeclaration(type)`.  NOTE (faithful to the source): the
node is created as `new ASTNode` with kind `variable_declaration` and then its
`type` field is immediately overwritten by `declarationNode.type = type`,
so the resulting node kind is the declared C type string, not
`variable_declaration`. -/
def parseVariableDeclaration : Nat → List Token → Nat → String →
    Except String (ASTNode × Nat)
  | 0, _, _, _ => Except.error "out of fuel"
  | f + 1, tokens, i, ty => do
    let (vars, i2) ← parseVarDeclLoop f tokens i []
    let (_, i3) ← consume tokens i2 "punctuation" (some ";")
    Except.ok (node ty none vars, i3)

/-- `parseControlFlowStatement()`; `do`/`switch` fall through to the
"Unsupported control flow structure" error. -/
def parseControlFlowStatement : Nat → List Token → Nat → Except String (ASTNode × Nat)
  | 0, _, _ => Except.error "out of fuel"
  | f + 1, tokens, i =>
    match getCurrentToken tokens i with
    | none => Except.error "TypeError: cannot read value of null token"
    | some tok =>
      if tok.value = "if" then parseIfStatement f tokens i
      else if tok.value = "for" then parseForStatement f tokens i
      else if tok.value = "while" then parseWhileStatement f tokens i
      else if tok.value = "return" then parseReturnStatement f tokens i
      else Except.error ("Unsupported control flow structure: " ++ tok.value)
termination_by structural f _ _ => f

/-- `parseIfStatement()`: children are `[condition, ifBlock]` plus an
optional else block. -/
def parseIfStatement : Nat → List Token → Nat → Except String (ASTNode × Nat)
  | 0, _, _ => Except.error "out of fuel"
  | f + 1, tokens, i => do
    let (_, i2) ← consume tokens i "keyword" (some "if")
    let (_, i3) ← consume tokens i2 "punctuation" (some "(")
    let (condition, i4) ← parseExpression f tokens i3
    let (_, i5) ← consume tokens i4 "punctuation" (some ")")
    let (ifBlock, i6) ←
      if checkValue tokens i5 "\x7b" then parseCompoundStatement f tokens i5
      else parseExpressionStatement f tokens i5
    match tryConsume tokens i6 "keyword" (some "else") with
    | some (_, i7) => do
      let (elseBlock, i8) ←
        if checkValue tokens i7 "\x7b" then parseCompoundStatement f tokens i7
        else parseExpressionStatement f tokens i7
      Except.ok (node "if_statement" none [condition, ifBlock, elseBlock], i8)
    | none => Except.ok (node "if_statement" none [condition, ifBlock], i6)
termination_by structural f _ _ => f

/-- `parseForStatement()`: children are always exactly
`[init, condition, increment, body]`, with `empty` nodes for omitted
clauses. -/
def parseForStatement : Nat → List Token → Nat → Except String (ASTNode × Nat)
  | 0, _, _ => Except.error "out of fuel"
  | f + 1, tokens, i => do
    let (_, i2) ← consume tokens i "keyword" (some "for")
    let (_, i3) ← consume tokens i2 "punctuation" (some "(")
    let (initialization, i4) ←
      if checkValue tokens i3 ";" then Except.ok (node "empty" none [], i3)
      else parseExpression f tokens i3
    let (_, i5) ← consume tokens i4 "punctuation" (some ";")
    let (condition, i6) ←
      if checkValue tokens i5 ";" then Except.ok (node "empty" none [], i5)
      else parseExpression f tokens i5
    let (_, i7) ← consume tokens i6 "punctuation" (some ";")
    let (increment, i8) ←
      if checkValue tokens i7 ")" then Except.ok (node "empty" none [], i7)
      else parseExpression f tokens i7
    let (_, i9) ← consume tokens i8 "punctuation" (some ")")
    let (body, i10) ←
      if checkValue tokens i9 "\x7b" then parseCompoundStatement f tokens i9
      else parseExpressionStatement f tokens i9
    Except.ok (node "for_statement" none [initialization, condition, increment, body], i10)
termination_by structural f _ _ => f

/-- `parseWhileStatement()`. -/
def parseWhileStatement : Nat → List Token → Nat → Except String (ASTNode × Nat)
  | 0, _, _ => Except.error "out of fuel"
  | f + 1, tokens, i => do
    let (_, i2) ← consume tokens i "keyword" (some "while")
    let (_, i3) ← consume tokens i2 "punctuation" (some "(")
    let (condition, i4) ← parseExpression f tokens i3
    let (_, i5) ← consume tokens i4 "punctuation" (some ")")
    let (body, i6) ←
      if checkValue tokens i5 "\x7b" then parseCompoundStatement f tokens i5
      else parseExpressionStatement f tokens i5
    Except.ok (node "while_statement" none [condition, body], i6)
termination_by structural f _ _ => f

/-- `parseReturnStatement()`. -/
def parseReturnStatement : Nat → List Token → Nat → Except String (ASTNode × Nat)
  | 0, _, _ => Except.error "out of fuel"
  | f + 1, tokens, i => do
    let (_, i2) ← consume tokens i "keyword" (some "return")
    if checkValue tokens i2 ";" then do
      let (_, i3) ← consume tokens i2 "punctuation" (some ";")
      Except.ok (node "return_statement" none [], i3)
    else do
      let (returnValue, i3) ← parseExpression f tokens i2
      let (_, i4) ← consume tokens i3 "punctuation" (some ";")
      Except.ok (node "return_statement" none [returnValue], i4)

/-- `parseExpressionStatement()`. -/
def parseExpressionStatement : Nat → List Token → Nat → Except String (ASTNode × Nat)
  | 0, _, _ => Except.error "out of fuel"
  | f + 1, tokens, i => do
    let (e, i2) ← parseExpression f tokens i
    let (_, i3) ← consume tokens i2 "punctuation" (some ";")
    Except.ok (e, i3)

/-- `parseExpression()` delegates to the assignment level. -/
def parseExpression : Nat → List Token → Nat → Except String (ASTNode × Nat)
  | 0, _, _ => Except.error "out of fuel"
  | f + 1, tokens, i => parseAssignment f tokens i
termination_by structural f _ _ => f

/-- `parseAssignment()`: right-associative via self-recursion on the right
operand. -/
def parseAssignment : Nat → List Token → Nat → Except String (ASTNode × Nat)
  | 0, _, _ => Except.error "out of fuel"
  | f + 1, tokens, i => do
    let (left, i2) ← parseLogicalExpression f tokens i
    match getCurrentToken tokens i2 with
    | some tok =>
      if tok.type = "operator" ∧ assignmentOps.contains tok.value then do
        let (optok, i3) ← consume tokens i2 "operator" none
        let (right, i4) ← parseAssignment f tokens i3
        Except.ok (node "assignment_expression" (some optok.value) [left, right], i4)
      else Except.ok (left, i2)
    | none => Except.ok (left, i2)
termination_by structural f _ _ => f

/-- The while loop of `parseLogicalExpression`: left-associative folding. -/
def parseLogicalLoop : Nat → List Token → Nat → ASTNode → Except String (ASTNode × Nat)
  | 0, _, _, _ => Except.error "out of fuel"
  | f + 1, tokens, i, left =>
    if checkType tokens i "operator" ∧
       (checkValue tokens i "&&" ∨ checkValue tokens i "||") then do
      let (optok, i2) ← consume tokens i "operator" none
      let (right, i3) ← parseRelationalExpression f tokens i2
      parseLogicalLoop f tokens i3 (node "logical_expression" (some optok.value) [left, right])
    else Except.ok (left, i)
termination_by structural f _ _ _ => f

/-- `parseLogicalExpression()`. -/
def parseLogicalExpression : Nat → List Token → Nat → Except String (ASTNode × Nat)
  | 0, _, _ => Except.error "out of fuel"
  | f + 1, tokens, i => do
    let (left, i2) ← parseRelationalExpression f tokens i
    parseLogicalLoop f tokens i2 left
termination_by structural f _ _ => f

/-- The while loop of `parseRelationalExpression`. -/
def parseRelationalLoop : Nat → List Token → Nat → ASTNode → Except String (ASTNode × Nat)
  | 0, _, _, _ => Except.error "out of fuel"
  | f + 1, tokens, i, left =>
    if checkType tokens i "operator" &&
       (match getCurrentToken tokens i with
        | some tok => ["==", "!=", "<", ">", "<=", ">="].contains tok.value
        | none => false) then do
      let (optok, i2) ← consume tokens i "operator" none
      let (right, i3) ← parseAdditiveExpression f tokens i2
      parseRelationalLoop f tokens i3
        (node "relational_expression" (some optok.value) [left, right])
    else Except.ok (left, i)
termination_by structural f _ _ _ => f

/-- `parseRelationalExpression()`. -/
def parseRelationalExpression : Nat → List Token → Nat → Except String (ASTNode × Nat)
  | 0, _, _ => Except.error "out of fuel"
  | f + 1, tokens, i => do
    let (left, i2) ← parseAdditiveExpression f tokens i
    parseRelationalLoop f tokens i2 left
termination_by structural f _ _ => f

/-- The while loop of `parseAdditiveExpression`. -/
def parseAdditiveLoop : Nat → List Token → Nat → ASTNode → Except String (ASTNode × Nat)
  | 0, _, _, _ => Except.error "out of fuel"
  | f + 1, tokens, i, left =>
    if checkType tokens i "operator" ∧
       (checkValue tokens i "+" ∨ checkValue tokens i "-") then do
      let (optok, i2) ← consume tokens i "operator" none
      let (right, i3) ← parseMultiplicativeExpression f tokens i2
      parseAdditiveLoop f tokens i3 (node "additive_expression" (some optok.value) [left, right])
    else Except.ok (left, i)
termination_by structural f _ _ _ => f

/-- `parseAdditiveExpression()`. -/
def parseAdditiveExpression : Nat → List Token → Nat → Except String (ASTNode × Nat)
  | 0, _, _ => Except.error "out of fuel"
  | f + 1, tokens, i => do
    let (left, i2) ← parseMultiplicativeExpression f tokens i
    parseAdditiveLoop f tokens i2 left
termination_by structural f _ _ => f

/-- The while loop of `parseMultiplicativeExpression`. -/
def parseMultiplicativeLoop : Nat → List Token → Nat → ASTNode →
    Except String (ASTNode × Nat)
  | 0, _, _, _ => Except.error "out of fuel"
  | f + 1, tokens, i, left =>
    if checkType tokens i "operator" ∧
       (checkValue tokens i "*" ∨ checkValue tokens i "/" ∨ checkValue tokens i "%") then do
      let (optok, i2) ← consume tokens i "operator" none
      let (right, i3) ← parseUnaryExpression f tokens i2
      parseMultiplicativeLoop f tokens i3
        (node "multiplicative_expression" (some optok.value) [left, right])
    else Except.ok (left, i)
termination_by structural f _ _ _ => f

/-- `parseMultiplicativeExpression()`. -/
def parseMultiplicativeExpression : Nat → List Token → Nat → Except String (ASTNode × Nat)
  | 0, _, _ => Except.error "out of fuel"
  | f + 1, tokens, i => do
    let (left, i2) ← parseUnaryExpression f tokens i
    parseMultiplicativeLoop f tokens i2 left
termination_by structural f _ _ => f

/-- `parseUnaryExpression()`. -/
def parseUnaryExpression : Nat → List Token → Nat → Except String (ASTNode × Nat)
  | 0, _, _ => Except.error "out of fuel"
  | f + 1, tokens, i =>
    if checkType tokens i "operator" &&
       (match getCurrentToken tokens i with
        | some tok => ["+", "-", "!", "~", "++", "--", "*", "&"].contains tok.value
        | none => false) then do
      let (optok, i2) ← consume tokens i "operator" none
      let (operand, i3) ← parseUnaryExpression f tokens i2
      Except.ok (node "unary_expression" (some optok.value) [operand], i3)
    else parsePrimaryFactor f tokens i
termination_by structural f _ _ => f

/-- The argument do-while loop of a call expression in `parsePrimaryFactor`. -/
def parseArgLoop : Nat → List Token → Nat → List ASTNode →
    Except String (List ASTNode × Nat)
  | 0, _, _, _ => Except.error "out of fuel"
  | f + 1, tokens, i, acc => do
    let i2 := match tryConsume tokens i "punctuation" (some ",") with
      | some (_, i2) => i2
      | none => i
    let (arg, i3) ← parseExpression f tokens i2
    let acc2 := acc ++ [arg]
    if checkValue tokens i3 "," then parseArgLoop f tokens i3 acc2
    else Except.ok (acc2, i3)
termination_by structural f _ _ _ => f

/-- `parsePrimaryFactor()`: literals, identifiers (with call and array-index
lookahead), parenthesised expressions. -/
def parsePrimaryFactor : Nat → List Token → Nat → Except String (ASTNode × Nat)
  | 0, _, _ => Except.error "out of fuel"
  | f + 1, tokens, i =>
    if checkType tokens i "literal" then do
      let (tok, i2) ← consume tokens i "literal" none
      Except.ok (node "literal" (some tok.value) [], i2)
    else if checkType tokens i "identifier" then do
      let (idtok, i2) ← consume tokens i "identifier" none
      if checkValue tokens i2 "(" then do
        let (_, i3) ← consume tokens i2 "punctuation" (some "(")
        let (args, i4) ←
          if checkValue tokens i3 ")" then Except.ok (([] : List ASTNode), i3)
          else parseArgLoop f tokens i3 []
        let (_, i5) ← consume tokens i4 "punctuation" (some ")")
        Except.ok (node "call_expression" (some idtok.value) args, i5)
      else if checkValue tokens i2 "[" then do
        let (_, i3) ← consume tokens i2 "punctuation" (some "[")
        let (index, i4) ← parseExpression f tokens i3
        let (_, i5) ← consume tokens i4 "punctuation" (some "]")
        Except.ok (node "array_access" (some idtok.value) [index], i5)
      else Except.ok (node "identifier" (some idtok.value) [], i2)
    else if checkValue tokens i "(" then do
      let (_, i2) ← consume tokens i "punctuation" (some "(")
      let (e, i3) ← parseExpression f tokens i2
      let (_, i4) ← consume tokens i3 "punctuation" (some ")")
      Except.ok (e, i4)
    else
      match getCurrentToken tokens i with
      | some tok =>
        Except.error ("Unexpected token while parsing expression: " ++ tok.type ++
          " " ++ tok.value ++ " at line " ++ toString tok.line)
      | none => Except.error "TypeError: cannot read type of null token"

termination_by structural f _ _ => f
end

/-- `parse()`: fails on an empty token list, otherwise parses the program
root. -/
def parse (fuel : Nat) (tokens : List Token) : Except String ASTNode :=
  if tokens.isEmpty then Except.error "No tokens to parse"
  else (parseProgramLoop fuel tokens 0 []).map (fun r => r.1)

end Parser

/-- A memory cell `{value, name, type}` as stored in the delta `memory`
sub-maps and in `appState.memory`. -/
structure MemCell where
  value : Int
  name : String
  ty : String
deriving DecidableEq, Repr

/-- The variable record `{name, value, address, type}` carried by the
`add`/`update` entries of a delta `stack` sub-map. -/
structure StackVarRec where
  name : String
  value : Int
  address : Nat
  ty : String
deriving DecidableEq, Repr

/-- One entry of a delta `stack` sub-map: `{add: rec}`, `{update: rec}` or
`{remove: true}`. -/
inductive StackDelta where
  | add (v : StackVarRec)
  | update (v : StackVarRec)
  | remove
deriving DecidableEq, Repr

/-- One entry of a delta `heap` sub-map: `{address, size, freed}`. -/
structure HeapDelta where
  address : Nat
  size : Nat
  freed : Bool
deriving DecidableEq, Repr

/-- The sparse `changes` patch of an `ExecutionStep`: up to four independent
sub-maps (`memory`, `stack`, `heap`, `saida` i.e. appended console text). -/
structure Changes where
  memory : List (Nat × MemCell)
  stack : List (String × StackDelta)
  heap : List (Nat × HeapDelta)
  saida : Option String
deriving DecidableEq, Repr

/-- The empty `changes` object. -/
def emptyChanges : Changes := ⟨[], [], [], none⟩

/-- `ExecutionStep` from state.js: `{type, line, description, changes}`. -/
structure ExecutionStep where
  type : String
  line : Int
  description : String
  changes : Changes
deriving DecidableEq, Repr

/-- A variable cell inside a `StackFrame` (`{value, address, type}`). -/
structure VarCell where
  value : Int
  address : Nat
  ty : String
deriving DecidableEq, Repr

/-- `StackFrame` from state.js. -/
structure StackFrame where
  functionName : String
  returnAddress : Nat
  vars : List (String × VarCell)
deriving DecidableEq, Repr

/-- The `content` field of a `HeapBlock`: the string `uninitialized` at
allocation, later an index-to-value map. -/
inductive HBContent where
  | uninit
  | vals (l : List (Nat × Int))
deriving DecidableEq, Repr

/-- `HeapBlock` from state.js; `freed` starts `false`. -/
structure HeapBlock where
  address : Nat
  size : Nat
  content : HBContent
  freed : Bool
deriving DecidableEq, Repr

/-- One entry of `appState.errors` (`{message, type}`; the `new Date()`
timestamp is an external clock effect and is not modelled). -/
structure ErrEntry where
  message : String
  etype : String
deriving DecidableEq, Repr

/-- The slice of `AppState` read and written by the pipeline. -/
structure AppState where
  code : String
  tokens : List Token
  ast : Option ASTNode
  memory : List (Nat × MemCell)
  stack : List StackFrame
  heap : List (Nat × HeapBlock)
  consoleOutput : String
  errors : List ErrEntry

/-- JS object-key assignment on an association list: overwrite the existing
key or append a new binding. -/
def assocSet {κ : Type} {α : Type} [DecidableEq κ] (l : List (κ × α)) (k : κ) (v : α) :
    List (κ × α) :=
  if l.any (fun p => p.1 = k) then
    l.map (fun p => if p.1 = k then (k, v) else p)
  else l ++ [(k, v)]

/-- In-place mutation of the value stored under a key. -/
def assocModify {κ : Type} {α : Type} [DecidableEq κ] (l : List (κ × α)) (k : κ)
    (f : α → α) : List (κ × α) :=
  l.map (fun p => if p.1 = k then (k, f p.2) else p)

/-- `AppState.addError(message)`: appends a record with the message and severity `error` to the
error log. -/
def addError (st : AppState) (message : String) : AppState :=
  { st with errors := st.errors ++ [⟨message, "error"⟩] }

/-- `StackFrame.addVariable` applied to the frame most recently pushed
(the generators mutate the frame object they just pushed). -/
def modifyLastFrame (frames : List StackFrame) (f : StackFrame → StackFrame) :
    List StackFrame :=
  match frames with
  | [] => []
  | [fr] => [f fr]
  | fr :: rest => fr :: modifyLastFrame rest f

/-- `StackFrame.addVariable(name, value, address, type)`. -/
def frameAddVar (name : String) (value : Int) (address : Nat) (ty : String)
    (fr : StackFrame) : StackFrame :=
  { fr with vars := assocSet fr.vars name ⟨value, address, ty⟩ }

/-- `StackFrame.updateVariable(name, value)` (no-op when absent). -/
def frameUpdateVar (name : String) (value : Int) (fr : StackFrame) : StackFrame :=
  { fr with vars := assocModify fr.vars name (fun c => { c with value := value }) }

namespace Interpreter

/-- `this.baseAddress` (stack base) from the interpreter constructor. -/
def baseAddress : Nat := 0x1000

/-- `this.heapBase` (heap base) from the interpreter constructor. -/
def heapBase : Nat := 0x8000

/-- `findLastLine()`: maximum token line, or 1 when there are no tokens. -/
def findLastLine (st : AppState) : Int :=
  match st.tokens with
  | [] => 1
  | t :: rest => rest.foldl (fun m tk => max m tk.line) t.line

/-- Substring occurrence check (JS `String.prototype.includes`): the pattern
is a prefix of some suffix of the string. -/
def containsSub : List Char → List Char → Bool
  | [], pat => pat.isEmpty
  | c :: rest, pat => pat.isPrefixOf (c :: rest) || containsSub rest pat

/-- JS `code.includes(pat)`. -/
def strIncludes (s pat : String) : Bool := containsSub s.data pat.data

/-- JS `code.toLowerCase()` (character-wise lowering). -/
def toLowerStr (s : String) : String := String.mk (s.data.map Char.toLower)

/-- JS truthiness of a node's `value` (`null` and the empty string are
falsy). -/
def truthyVal : Option String → Bool
  | some s => !(s == "")
  | none => false

mutual

/-- The `findFunctions` walk of `hasRecursion`: collect the values of
`function_definition` nodes with a truthy value. -/
def findFunctions : ASTNode → List String
  | ASTNode.mk t v cs _ _ _ =>
    (if t = "function_definition" ∧ truthyVal v then [v.getD ""] else []) ++
      findFunctionsList cs

/-- `findFunctions` over a child list. -/
def findFunctionsList : List ASTNode → List String
  | [] => []
  | n :: rest => findFunctions n ++ findFunctionsList rest

end

mutual

/-- The `findRecursiveCalls` walk of `hasRecursion`: a `call_expression`
whose truthy value is a known function name equal to the enclosing function
flags recursion. -/
def findRecursiveCalls (fns : List String) (cur : Option String) : ASTNode → Bool
  | ASTNode.mk t v cs _ _ _ =>
    let cur2 := if t = "function_definition" ∧ truthyVal v then v else cur
    if t = "call_expression" ∧ truthyVal v ∧ fns.contains (v.getD "") ∧ v = cur2 then true
    else findRecursiveCallsList fns cur2 cs

/-- `findRecursiveCalls` over a child list. -/
def findRecursiveCallsList (fns : List String) (cur : Option String) :
    List ASTNode → Bool
  | [] => false
  | n :: rest =>
    findRecursiveCalls fns cur n || findRecursiveCallsList fns cur rest

end

/-- `hasRecursion()`. -/
def hasRecursion (st : AppState) : Bool :=
  match st.ast with
  | none => false
  | some ast => findRecursiveCalls (findFunctions ast) none ast

/-- `determineCodeType()`: the fingerprint if-chain over the lowercased
source (first match wins). -/
def determineCodeType (st : AppState) : String :=
  let code := toLowerStr st.code
  if strIncludes code "malloc(" || strIncludes code "free(" then "dynamic_allocation"
  else if strIncludes code "struct " then "structures"
  else if strIncludes code "fopen(" || strIncludes code "fclose(" then "file_io"
  else if strIncludes code "switch(" || strIncludes code "case " then "switch_case"
  else if strIncludes code "#define " then "preprocessor"
  else if strIncludes code "<<" || strIncludes code ">>" || strIncludes code " & " then
    "bitwise"
  else if hasRecursion st then "recursion"
  else if strIncludes code "[" && strIncludes code "]" then "arrays"
  else "basic"

mutual

/-- The `findFunctionCalls` walk: count/collect `call_expression` nodes with
the given callee name.  (Only the number of matches is observable in the
fallback generator: `ASTNode` has no `line` field, so `call.line` is always
undefined in the source and the step line falls back to `index + 3`.) -/
def countFunctionCalls (fname : String) : ASTNode → Nat
  | ASTNode.mk t v cs _ _ _ =>
    (if t = "call_expression" ∧ v = some fname then 1 else 0) +
      countFunctionCallsList fname cs

/-- `findFunctionCalls` over a child list. -/
def countFunctionCallsList (fname : String) : List ASTNode → Nat
  | [] => 0
  | n :: rest => countFunctionCalls fname n + countFunctionCallsList fname rest

end

/-- `generateStepsForVariablesAndPointers(steps)` (the `basic` script):
x at 0x1000, y at 0x1004, ptr at 0x1008, eleven steps, with the matching
mutations of the shared simulation state. -/
def generateStepsForVariablesAndPointers (st : AppState) :
    List ExecutionStep × AppState :=
  let xAddress := baseAddress
  let yAddress := baseAddress + 4
  let ptrAddress := baseAddress + 8
  let steps : List ExecutionStep :=
    [⟨"declaration", 4, "Declaration of variable x with value 10",
      ⟨[(xAddress, ⟨10, "x", "int"⟩)],
       [("main", StackDelta.add ⟨"x", 10, xAddress, "int"⟩)], [], none⟩⟩,
     ⟨"declaration", 5, "Declaration of variable y with value 20",
      ⟨[(yAddress, ⟨20, "y", "int"⟩)],
       [("main", StackDelta.add ⟨"y", 20, yAddress, "int"⟩)], [], none⟩⟩,
     ⟨"declaration", 6, "Declaration of pointer ptr pointing to x",
      ⟨[(ptrAddress, ⟨(xAddress : Int), "ptr", "int*"⟩)],
       [("main", StackDelta.add ⟨"ptr", (xAddress : Int), ptrAddress, "int*"⟩)], [], none⟩⟩,
     ⟨"call", 8, "Printf function call showing x and y values",
      ⟨[], [], [], some "x = 10, y = 20\n"⟩⟩,
     ⟨"call", 9, "Printf function call showing value pointed by ptr",
      ⟨[], [], [], some "*ptr = 10\n"⟩⟩,
     ⟨"assignment", 11, "Assignment of 30 to the value pointed by ptr (x)",
      ⟨[(xAddress, ⟨30, "x", "int"⟩)],
       [("main", StackDelta.update ⟨"x", 30, xAddress, "int"⟩)], [], none⟩⟩,
     ⟨"call", 12, "Printf function call showing x value after change",
      ⟨[], [], [], some "After *ptr = 30, x = 30\n"⟩⟩,
     ⟨"assignment", 14, "Assignment of y address to ptr",
      ⟨[(ptrAddress, ⟨(yAddress : Int), "ptr", "int*"⟩)],
       [("main", StackDelta.update ⟨"ptr", (yAddress : Int), ptrAddress, "int*"⟩)], [], none⟩⟩,
     ⟨"assignment", 15, "Assignment of 40 to the value pointed by ptr (y)",
      ⟨[(yAddress, ⟨40, "y", "int"⟩)],
       [("main", StackDelta.update ⟨"y", 40, yAddress, "int"⟩)], [], none⟩⟩,
     ⟨"call", 16, "Printf function call showing y value after change",
      ⟨[], [], [], some "After ptr = &y and *ptr = 40, y = 40\n"⟩⟩,
     ⟨"return", 18, "Return from main function",
      ⟨[], [("main", StackDelta.remove)], [], none⟩⟩]
  let st := { st with stack := st.stack ++ [(⟨"main", 0, []⟩ : StackFrame)] }
  let st := { st with
    stack := modifyLastFrame st.stack (frameAddVar "x" 10 xAddress "int"),
    memory := assocSet st.memory xAddress ⟨10, "x", "int"⟩ }
  let st := { st with
    stack := modifyLastFrame st.stack (frameAddVar "y" 20 yAddress "int"),
    memory := assocSet st.memory yAddress ⟨20, "y", "int"⟩ }
  let st := { st with
    stack := modifyLastFrame st.stack (frameAddVar "ptr" (xAddress : Int) ptrAddress "int*"),
    memory := assocSet st.memory ptrAddress ⟨(xAddress : Int), "ptr", "int*"⟩ }
  let st := { st with consoleOutput := st.consoleOutput ++ "x = 10, y = 20\n" }
  let st := { st with consoleOutput := st.consoleOutput ++ "*ptr = 10\n" }
  let st := { st with
    stack := modifyLastFrame st.stack (frameUpdateVar "x" 30),
    memory := assocModify st.memory xAddress (fun c => { c with value := 30 }) }
  let st := { st with consoleOutput := st.consoleOutput ++ "After *ptr = 30, x = 30\n" }
  let st := { st with
    stack := modifyLastFrame st.stack (frameUpdateVar "ptr" (yAddress : Int)),
    memory := assocModify st.memory ptrAddress (fun c => { c with value := (yAddress : Int) }) }
  let st := { st with
    stack := modifyLastFrame st.stack (frameUpdateVar "y" 40),
    memory := assocModify st.memory yAddress (fun c => { c with value := 40 }) }
  let st := { st with consoleOutput := st.consoleOutput ++ "After ptr = &y and *ptr = 40, y = 40\n" }
  (steps, st)

/-- `generateStepsForArraysAndPointers(steps)` (the `arrays` script): five
array cells starting at 0x1000, ptr at 0x1014, with the per-iteration loop
steps unrolled exactly as the source executes them. -/
def generateStepsForArraysAndPointers (st : AppState) :
    List ExecutionStep × AppState :=
  let arrayAddress := baseAddress
  let ptrAddress := baseAddress + 20
  let memoryChanges : List (Nat × MemCell) :=
    [(arrayAddress, ⟨10, "numeros[0]", "int"⟩),
     (arrayAddress + 4, ⟨20, "numeros[1]", "int"⟩),
     (arrayAddress + 8, ⟨30, "numeros[2]", "int"⟩),
     (arrayAddress + 12, ⟨40, "numeros[3]", "int"⟩),
     (arrayAddress + 16, ⟨50, "numeros[4]", "int"⟩)]
  let steps : List ExecutionStep :=
    [⟨"declaration", 5, "Declaration and initialization of array numeros with 5 elements",
      ⟨memoryChanges,
       [("main", StackDelta.add ⟨"numeros", (arrayAddress : Int), arrayAddress, "int[5]"⟩)],
       [], none⟩⟩,
     ⟨"declaration", 6, "Declaration of pointer ptr initialized with numeros array address",
      ⟨[(ptrAddress, ⟨(arrayAddress : Int), "ptr", "int*"⟩)],
       [("main", StackDelta.add ⟨"ptr", (arrayAddress : Int), ptrAddress, "int*"⟩)],
       [], none⟩⟩,
     ⟨"call", 8, "Printf function call showing the array address",
      ⟨[], [], [], some "Endereço de numeros: 0x1000\n"⟩⟩,
     ⟨"call", 9, "Printf function call showing pointer ptr value",
      ⟨[], [], [], some "Valor de ptr: 0x1000\n"⟩⟩,
     ⟨"execution", 11, "Loop iteration 1 - accessing array elements", emptyChanges⟩,
     ⟨"call", 13, "Printf function call showing array element 0",
      ⟨[], [], [], some "numeros[0] = 10, *(ptr+0) = 10\n"⟩⟩,
     ⟨"execution", 11, "Loop iteration 2 - accessing array elements", emptyChanges⟩,
     ⟨"call", 13, "Printf function call showing array element 1",
      ⟨[], [], [], some "numeros[1] = 20, *(ptr+1) = 20\n"⟩⟩,
     ⟨"execution", 11, "Loop iteration 3 - accessing array elements", emptyChanges⟩,
     ⟨"call", 13, "Printf function call showing array element 2",
      ⟨[], [], [], some "numeros[2] = 30, *(ptr+2) = 30\n"⟩⟩,
     ⟨"execution", 11, "Loop iteration 4 - accessing array elements", emptyChanges⟩,
     ⟨"call", 13, "Printf function call showing array element 3",
      ⟨[], [], [], some "numeros[3] = 40, *(ptr+3) = 40\n"⟩⟩,
     ⟨"execution", 11, "Loop iteration 5 - accessing array elements", emptyChanges⟩,
     ⟨"call", 13, "Printf function call showing array element 4",
      ⟨[], [], [], some "numeros[4] = 50, *(ptr+4) = 50\n"⟩⟩,
     ⟨"assignment", 16, "Repositioning ptr to the third element of array (numeros[2])",
      ⟨[(ptrAddress, ⟨(arrayAddress : Int) + 8, "ptr", "int*"⟩)],
       [("main", StackDelta.update ⟨"ptr", (arrayAddress : Int) + 8, ptrAddress, "int*"⟩)],
       [], none⟩⟩,
     ⟨"call", 17, "Printf function call with informative message",
      ⟨[], [], [], some "\nptr agora aponta para numeros[2]\n"⟩⟩,
     ⟨"call", 18, "Printf function call showing value pointed by ptr",
      ⟨[], [], [], some "*ptr = 30\n"⟩⟩,
     ⟨"call", 19, "Printf function call demonstrating pointer indexing",
      ⟨[], [], [], some "ptr[-1] = 20, ptr[1] = 40\n"⟩⟩,
     ⟨"return", 21, "Return from main function",
      ⟨[], [("main", StackDelta.remove)], [], none⟩⟩]
  let st := { st with stack := st.stack ++ [(⟨"main", 0, []⟩ : StackFrame)] }
  let st := { st with
    stack := modifyLastFrame st.stack
      (frameAddVar "numeros" (arrayAddress : Int) arrayAddress "int[5]"),
    memory := memoryChanges.foldl
      (fun (m : List (Nat × MemCell)) (p : Nat × MemCell) => assocSet m p.1 p.2) st.memory }
  let st := { st with
    stack := modifyLastFrame st.stack (frameAddVar "ptr" (arrayAddress : Int) ptrAddress "int*"),
    memory := assocSet st.memory ptrAddress ⟨(arrayAddress : Int), "ptr", "int*"⟩ }
  let st := { st with consoleOutput := st.consoleOutput ++
    ("Endereço de numeros: 0x1000\n" ++ "Valor de ptr: 0x1000\n" ++
     "numeros[0] = 10, *(ptr+0) = 10\n" ++ "numeros[1] = 20, *(ptr+1) = 20\n" ++
     "numeros[2] = 30, *(ptr+2) = 30\n" ++ "numeros[3] = 40, *(ptr+3) = 40\n" ++
     "numeros[4] = 50, *(ptr+4) = 50\n") }
  let st := { st with
    stack := modifyLastFrame st.stack (frameUpdateVar "ptr" ((arrayAddress : Int) + 8)),
    memory := assocModify st.memory ptrAddress
      (fun c => { c with value := (arrayAddress : Int) + 8 }) }
  let st := { st with consoleOutput := st.consoleOutput ++
    ("\nptr agora aponta para numeros[2]\n" ++ "*ptr = 30\n" ++
     "ptr[-1] = 20, ptr[1] = 40\n") }
  (steps, st)

/-- `generateStepsForDynamicAllocation(steps)` (the `dynamic_allocation`
script): ptr at 0x1000, n at 0x1008, one heap block of 20 bytes at the heap
base 0x8000 that is allocated, element-initialised, printed, freed, and
flagged with a dangling-pointer warning. -/
def generateStepsForDynamicAllocation (st : AppState) :
    List ExecutionStep × AppState :=
  let ptrAddress := baseAddress
  let nAddress := baseAddress + 8
  let heapBlockAddress := heapBase
  let allocSize := 20
  let steps : List ExecutionStep :=
    [⟨"declaration", 5, "Declaration of pointer ptr (uninitialized)",
      ⟨[(ptrAddress, ⟨0, "ptr", "int*"⟩)],
       [("main", StackDelta.add ⟨"ptr", 0, ptrAddress, "int*"⟩)], [], none⟩⟩,
     ⟨"declaration", 6, "Declaration of variable n with value 5",
      ⟨[(nAddress, ⟨5, "n", "int"⟩)],
       [("main", StackDelta.add ⟨"n", 5, nAddress, "int"⟩)], [], none⟩⟩,
     ⟨"call", 9, "Malloc function call to allocate 5 integers on heap",
      ⟨[(ptrAddress, ⟨(heapBlockAddress : Int), "ptr", "int*"⟩)],
       [("main", StackDelta.update ⟨"ptr", (heapBlockAddress : Int), ptrAddress, "int*"⟩)],
       [(heapBlockAddress, ⟨heapBlockAddress, allocSize, false⟩)], none⟩⟩,
     ⟨"conditional", 11, "Checking if allocation was successful", emptyChanges⟩,
     ⟨"assignment", 16, "Initializing ptr[0] with value 0",
      ⟨[(heapBlockAddress, ⟨0, "*(ptr+0)", "int"⟩)], [], [], none⟩⟩,
     ⟨"assignment", 16, "Initializing ptr[1] with value 10",
      ⟨[(heapBlockAddress + 4, ⟨10, "*(ptr+1)", "int"⟩)], [], [], none⟩⟩,
     ⟨"assignment", 16, "Initializing ptr[2] with value 20",
      ⟨[(heapBlockAddress + 8, ⟨20, "*(ptr+2)", "int"⟩)], [], [], none⟩⟩,
     ⟨"assignment", 16, "Initializing ptr[3] with value 30",
      ⟨[(heapBlockAddress + 12, ⟨30, "*(ptr+3)", "int"⟩)], [], [], none⟩⟩,
     ⟨"assignment", 16, "Initializing ptr[4] with value 40",
      ⟨[(heapBlockAddress + 16, ⟨40, "*(ptr+4)", "int"⟩)], [], [], none⟩⟩,
     ⟨"call", 21, "Printf function call showing ptr[0]",
      ⟨[], [], [], some "ptr[0] = 0\n"⟩⟩,
     ⟨"call", 21, "Printf function call showing ptr[1]",
      ⟨[], [], [], some "ptr[1] = 10\n"⟩⟩,
     ⟨"call", 21, "Printf function call showing ptr[2]",
      ⟨[], [], [], some "ptr[2] = 20\n"⟩⟩,
     ⟨"call", 21, "Printf function call showing ptr[3]",
      ⟨[], [], [], some "ptr[3] = 30\n"⟩⟩,
     ⟨"call", 21, "Printf function call showing ptr[4]",
      ⟨[], [], [], some "ptr[4] = 40\n"⟩⟩,
     ⟨"call", 25, "Free function call to release allocated memory",
      ⟨[], [], [(heapBlockAddress, ⟨heapBlockAddress, allocSize, true⟩)], none⟩⟩,
     ⟨"warning", 28, "ptr is now a dangling pointer pointing to freed memory",
      emptyChanges⟩,
     ⟨"return", 30, "Return from main function",
      ⟨[], [("main", StackDelta.remove)], [], none⟩⟩]
  let st := { st with stack := st.stack ++ [(⟨"main", 0, []⟩ : StackFrame)] }
  let st := { st with
    stack := modifyLastFrame st.stack (frameAddVar "ptr" 0 ptrAddress "int*"),
    memory := assocSet st.memory ptrAddress ⟨0, "ptr", "int*"⟩ }
  let st := { st with
    stack := modifyLastFrame st.stack (frameAddVar "n" 5 nAddress "int"),
    memory := assocSet st.memory nAddress ⟨5, "n", "int"⟩ }
  let st := { st with
    stack := modifyLastFrame st.stack (frameUpdateVar "ptr" (heapBlockAddress : Int)),
    memory := assocModify st.memory ptrAddress
      (fun c => { c with value := (heapBlockAddress : Int) }),
    heap := assocSet st.heap heapBlockAddress
      ⟨heapBlockAddress, allocSize, HBContent.uninit, false⟩ }
  let mem1 := assocSet st.memory heapBlockAddress ⟨0, "*(ptr+0)", "int"⟩
  let mem2 := assocSet mem1 (heapBlockAddress + 4) ⟨10, "*(ptr+1)", "int"⟩
  let mem3 := assocSet mem2 (heapBlockAddress + 8) ⟨20, "*(ptr+2)", "int"⟩
  let mem4 := assocSet mem3 (heapBlockAddress + 12) ⟨30, "*(ptr+3)", "int"⟩
  let mem5 := assocSet mem4 (heapBlockAddress + 16) ⟨40, "*(ptr+4)", "int"⟩
  let st := { st with memory := mem5 }
  let st := { st with
    heap := assocModify st.heap heapBlockAddress
      (fun b => { b with content := HBContent.vals [(0, 0), (1, 10), (2, 20), (3, 30), (4, 40)] }) }
  let st := { st with consoleOutput := st.consoleOutput ++
    ("ptr[0] = 0\n" ++ "ptr[1] = 10\n" ++ "ptr[2] = 20\n" ++
     "ptr[3] = 30\n" ++ "ptr[4] = 40\n") }
  let st := { st with
    heap := assocModify st.heap heapBlockAddress (fun b => { b with freed := true }) }
  (steps, st)

/-- The per-call `call` step of `generateStepsBasedOnAST`: `call.line` is
always undefined (an `ASTNode` has no `line` field), so the line falls back
to `index + 3`. -/
def fallbackCallStep (idx : Nat) : ExecutionStep :=
  ⟨"call", (idx : Int) + 3, "Printf function call",
   ⟨[], [], [], some "Simulated output from printf call\n"⟩⟩

/-- The `main`-function lookup of `generateStepsBasedOnAST`
(`this.appState.ast && this.appState.ast.children` then `children.find`). -/
def findMainNode (st : AppState) : Option ASTNode :=
  match st.ast with
  | some a => a.children.find?
      (fun (n : ASTNode) => n.type == "function_definition" && n.value == some "main")
  | none => none

/-- `generateStepsBasedOnAST(steps)` (the generic fallback): locate `main`
in the tree; without it, a single `error` step; with it, an `information`
step, one `call` step per `printf` call expression, and a `return` step. -/
def generateStepsBasedOnAST (st : AppState) : List ExecutionStep × AppState :=
  match findMainNode st with
  | some mn =>
    let st := { st with stack := st.stack ++ [(⟨"main", 0, []⟩ : StackFrame)] }
    let n := countFunctionCalls "printf" mn
    let callSteps := (List.range n).map fallbackCallStep
    let out := String.join (List.replicate n "Simulated output from printf call\n")
    let st := { st with consoleOutput := st.consoleOutput ++ out }
    (([(⟨"information", 2, "Found main() function - starting execution",
          emptyChanges⟩ : ExecutionStep)] ++
       callSteps ++
       [(⟨"return", findLastLine st - 1, "Return from main function",
         ⟨[], [("main", StackDelta.remove)], [], none⟩⟩ : ExecutionStep)]), st)
  | none =>
    ([⟨"error", 1, "Could not find main function for execution", emptyChanges⟩], st)

/-- The leading `initialization` step of `generateExecutionSteps`. -/
def initStep : ExecutionStep := ⟨"initialization", 1, "Program start", emptyChanges⟩

/-- The trailing `finalization` step of `generateExecutionSteps`. -/
def finalStep (line : Int) : ExecutionStep := ⟨"finalization", line, "Program end", emptyChanges⟩

/-- The try-block of `generateExecutionSteps`: classify, push the
initialization step, dispatch on the code type, push the finalization step.
The `structures`, `recursion`, `file_io`, `switch_case`, `preprocessor` and
`bitwise` cases dispatch to methods that are NOT defined anywhere in the
`Interpreter` class ("Other simulation methods for different example types
would go here"), so in JS the call itself throws a `TypeError` before any
step or state mutation of the branch happens; that exception is returned
here as `Except.error` carrying the steps pushed so far and the untouched
state, to be caught by the wrapper below. -/
def generateExecutionStepsBody (st : AppState) :
    Except (String × List ExecutionStep × AppState) (List ExecutionStep × AppState) :=
  let codeType := determineCodeType st
  let steps0 := [initStep]
  if codeType = "basic" then
    let r := generateStepsForVariablesAndPointers st
    Except.ok (steps0 ++ r.1 ++ [finalStep (findLastLine r.2)], r.2)
  else if codeType = "arrays" then
    let r := generateStepsForArraysAndPointers st
    Except.ok (steps0 ++ r.1 ++ [finalStep (findLastLine r.2)], r.2)
  else if codeType = "dynamic_allocation" then
    let r := generateStepsForDynamicAllocation st
    Except.ok (steps0 ++ r.1 ++ [finalStep (findLastLine r.2)], r.2)
  else if codeType = "structures" then
    Except.error ("this.generateStepsForStructures is not a function", steps0, st)
  else if codeType = "recursion" then
    Except.error ("this.generateStepsForRecursion is not a function", steps0, st)
  else if codeType = "file_io" then
    Except.error ("this.generateStepsForFileHandling is not a function", steps0, st)
  else if codeType = "switch_case" then
    Except.error ("this.generateStepsForSwitchCase is not a function", steps0, st)
  else if codeType = "preprocessor" then
    Except.error ("this.generateStepsForPreprocessor is not a function", steps0, st)
  else if codeType = "bitwise" then
    Except.error ("this.generateStepsForBitwise is not a function", steps0, st)
  else
    let r := generateStepsBasedOnAST st
    Except.ok (steps0 ++ r.1 ++ [finalStep (findLastLine r.2)], r.2)

/-- `generateExecutionSteps()`: the try/catch wrapper.  A caught exception
is logged via `appState.addError(error.message)`; the steps array filled so
far is returned as-is (the catch block pushes no step). -/
def generateExecutionSteps (st : AppState) : List ExecutionStep × AppState :=
  match generateExecutionStepsBody st with
  | Except.ok r => r
  | Except.error (msg, steps, st2) => (steps, addError st2 msg)

end Interpreter

/-! ### Decidable formulations of the claimed step-list invariants -/

/-- The variable names recorded by the `add`/`update` entries of one delta
`stack` sub-map (these are the named stack variables of a step). -/
def stackDeltaNames (c : Changes) : List String :=
  c.stack.foldr
    (fun p acc =>
      match p.2 with
      | StackDelta.add v => v.name :: acc
      | StackDelta.update v => v.name :: acc
      | StackDelta.remove => acc) []

/-- All stack-variable names recorded anywhere in a trace. -/
def traceStackNames (l : List ExecutionStep) : List String :=
  l.foldr (fun s acc => stackDeltaNames s.changes ++ acc) []

/-- Every address key of the step's delta `heap` sub-map is at or above the
heap base. -/
def stepHeapOK (s : ExecutionStep) : Bool :=
  s.changes.heap.all (fun p => Interpreter.heapBase ≤ p.1)

/-- Every variable record of the step's delta `stack` sub-map has an address
strictly below the heap base. -/
def stepStackOK (s : ExecutionStep) : Bool :=
  s.changes.stack.all
    (fun p =>
      match p.2 with
      | StackDelta.add v => v.address < Interpreter.heapBase
      | StackDelta.update v => v.address < Interpreter.heapBase
      | StackDelta.remove => true)

/-- Every delta `memory` cell that is a named stack variable of the trace
(its name is recorded by some stack `add`/`update` delta) sits at an address
strictly below the heap base. -/
def stepMemOK (names : List String) (s : ExecutionStep) : Bool :=
  s.changes.memory.all
    (fun p => !(names.contains p.2.name) || p.1 < Interpreter.heapBase)

/-- The C6 stack/heap address-partition invariant of a whole trace. -/
def addressPartitionOK (l : List ExecutionStep) : Bool :=
  l.all (fun s => stepHeapOK s && stepStackOK s && stepMemOK (traceStackNames l) s)

/-- In every step of `l`, any delta `heap` entry for address `a` still has
`freed = true`. -/
def staysFreed (a : Nat) (l : List ExecutionStep) : Bool :=
  l.all (fun s => s.changes.heap.all (fun p => p.1 != a || p.2.freed))

/-- The C7 temporal invariant: once a step's delta marks an address
`freed: true`, no later step of the trace reintroduces that address with
`freed: false`. -/
def noUnfree : List ExecutionStep → Bool
  | [] => true
  | s :: rest =>
    (s.changes.heap.all (fun p => !p.2.freed || staysFreed p.1 rest)) && noUnfree rest

/-! ### Reference functions and concrete inputs used by the claims -/

mutual

/-- Whether some node of the tree has kind `for_statement` with a number of
children different from four (the arity the specification promises). -/
def badForArity : ASTNode → Bool
  | ASTNode.mk t _ cs _ _ _ =>
    (t == "for_statement" && cs.length != 4) || badForArityList cs

/-- `badForArity` over a child list. -/
def badForArityList : List ASTNode → Bool
  | [] => false
  | n :: rest => badForArity n || badForArityList rest

end

/-- Concatenation of the `value` texts of a token list, in list order
(the spec's "re-concatenating token texts"). -/
def tokenTexts (ts : List Token) : List Char :=
  ts.foldr (fun t acc => t.value.data ++ acc) []

/-- Spec-side reference for C9: the characters of the input that are neither
whitespace nor part of a (lexical) comment, in order.  Comments are the
comment spans of the scanning regex; the fuel (one unit per character)
always suffices. -/
def nonCommentNonWsAux : Nat → List Char → List Char
  | 0, _ => []
  | _, [] => []
  | fuel + 1, c :: rest =>
    match Lexer.commentLen (c :: rest) with
    | some n => nonCommentNonWsAux fuel ((c :: rest).drop n)
    | none =>
      if c.isWhitespace then nonCommentNonWsAux fuel rest
      else c :: nonCommentNonWsAux fuel rest

/-- Spec-side reference for C9 (see `nonCommentNonWsAux`). -/
def nonCommentNonWs (s : String) : List Char :=
  nonCommentNonWsAux s.data.length s.data

/-- Amended reference for C9: the characters the scanning regex actually
keeps — the text of every non-comment match, in order (whitespace and
characters no alternative recognises are dropped). -/
def keptCharsAux : Nat → List Char → List Char
  | 0, _ => []
  | _, [] => []
  | fuel + 1, c :: rest =>
    match Lexer.nextMatch (c :: rest) with
    | some (Lexer.MKind.comment, n) => keptCharsAux fuel ((c :: rest).drop n)
    | some (_, n) => (c :: rest).take n ++ keptCharsAux fuel ((c :: rest).drop n)
    | none => keptCharsAux fuel rest

/-- Amended reference for C9 (see `keptCharsAux`). -/
def keptChars (s : String) : List Char :=
  keptCharsAux s.data.length s.data

/-- No line of the source is a preprocessor-directive line (its trimmed text
does not start with `#`). -/
def noDirectiveLines (s : String) : Bool :=
  (Lexer.splitNl s.data).all (fun l => !Lexer.startsWithHash (Lexer.trim l))

/-- An `AppState` holding a source that fingerprints as `structures`
(contains `struct ` and none of the higher-priority patterns). -/
def structState : AppState := ⟨"struct s;", [], none, [], [], [], "", []⟩

/-- An `AppState` whose source contains both `malloc(` and `struct `. -/
def mallocStructState : AppState :=
  ⟨"struct s; int m; m = malloc(4);", [], none, [], [], [], "", []⟩

/-- An `AppState` with an empty source: no fingerprint matches, no tree, so
classification is `basic`. -/
def basicState : AppState := ⟨"", [], none, [], [], [], "", []⟩

/-- An `AppState` whose source fingerprints as `dynamic_allocation`. -/
def mallocState : AppState := ⟨"malloc(", [], none, [], [], [], "", []⟩

/-- A token list whose `keyword` token carries the value `for_statement`:
global scope then parses it as a variable declaration of declared type
`for_statement`, and `parseVariableDeclaration` overwrites the node kind
with that string. -/
def forgedTokens : List Token :=
  [⟨"keyword", "for_statement", 1, 1⟩, ⟨"identifier", "x", 1, 14⟩,
   ⟨"punctuation", ";", 1, 15⟩]

/-- The tree `parse` returns on `forgedTokens`: a `for_statement`-kind node
with a single `variable` child. -/
def forgedTree : ASTNode :=
  node "program" none
    [node "for_statement" none [ASTNode.mk "variable" (some "x") [] none [] false]]

/-- An `identifier` token (for the C5 associativity statement). -/
def identTok (v : String) : Token := ⟨"identifier", v, 1, 1⟩

/-- An `operator` token (for the C5 associativity statement). -/
def opTok (v : String) : Token := ⟨"operator", v, 1, 1⟩

/-- The texts of the non-comment matches of a scan, in order. -/
def nonCommentTexts (ms : List Lexer.RawMatch) : List Char :=
  ms.foldr (fun m acc => if m.kind = Lexer.MKind.comment then acc else m.text ++ acc) []

/-! ## Shared helper lemmas -/

/-- `List.isPrefixOf` is preserved by mapping both lists. -/
theorem isPrefixOf_map (f : Char → Char) :
    ∀ p s : List Char, p.isPrefixOf s = true → (p.map f).isPrefixOf (s.map f) = true := by
  intro p
  induction p with
  | nil => intro s _; simp [List.isPrefixOf]
  | cons c cp ih =>
    intro s h
    cases s with
    | nil => simp [List.isPrefixOf] at h
    | cons d sd =>
      simp only [List.isPrefixOf, Bool.and_eq_true, beq_iff_eq] at h
      simp only [List.map, List.isPrefixOf, Bool.and_eq_true, beq_iff_eq]
      exact ⟨by rw [h.1], ih sd h.2⟩

/-- Substring containment is preserved by mapping both strings. -/
theorem containsSub_map (f : Char → Char) :
    ∀ s pat : List Char, Interpreter.containsSub s pat = true →
      Interpreter.containsSub (s.map f) (pat.map f) = true := by
  intro s
  induction s with
  | nil =>
    intro pat h
    simp only [Interpreter.containsSub, List.isEmpty_iff] at h
    subst h
    simp [Interpreter.containsSub]
  | cons c rest ih =>
    intro pat h
    simp only [Interpreter.containsSub, Bool.or_eq_true] at h
    rcases h with h | h
    · simp only [List.map, Interpreter.containsSub, Bool.or_eq_true]
      exact Or.inl (isPrefixOf_map f pat (c :: rest) h)
    · simp only [List.map, Interpreter.containsSub, Bool.or_eq_true]
      exact Or.inr (ih pat h)

/-- Lowercasing the source preserves occurrences of an all-lowercase
fingerprint pattern. -/
theorem strIncludes_toLower (st : AppState) (pat : String)
    (hpat : pat.data.map Char.toLower = pat.data)
    (h : Interpreter.strIncludes st.code pat = true) :
    Interpreter.strIncludes (Interpreter.toLowerStr st.code) pat = true := by
  have h2 := containsSub_map Char.toLower st.code.data pat.data h
  rw [hpat] at h2
  exact h2

/-! ## Claim theorems -/

/-- C10: for the empty token list, `parse` raises the error
`No tokens to parse` instead of returning a bare `program` root node,
whatever the fuel. -/
theorem c10_parse_empty_rejected :
    ∀ fuel : Nat, Parser.parse fuel [] = Except.error "No tokens to parse" :=
  fun _ => rfl

/-- C4 (code-bug exhibit): `parse` succeeds on a token list whose keyword
token carries the value `for_statement`, and the returned tree contains a
`for_statement`-kind node with one child instead of four —
`parseVariableDeclaration` overwrites the node kind with the declared type
string, so the fixed-arity property of `for_statement` nodes fails on the
code as written. -/
theorem c4_for_arity_violated_by_type_clobber :
    Parser.parse 100 forgedTokens = Except.ok forgedTree ∧
    badForArity forgedTree = true ∧
    forgedTree.children = [node "for_statement" none
      [ASTNode.mk "variable" (some "x") [] none [] false]] :=
  ⟨rfl, rfl, rfl⟩

/-- C5: assignment parses right-associatively (`a = b = c` is
`a = (b = c)`), while a chain of two identical left-associative operators
such as `a - b - c` parses with the left child `a - b`, for all identifier
names. -/
theorem c5_assignment_right_additive_left :
    ∀ a b c : String,
      Parser.parseExpression 50 [identTok a, opTok "=", identTok b, opTok "=", identTok c] 0 =
        Except.ok (node "assignment_expression" (some "=")
          [node "identifier" (some a) [],
           node "assignment_expression" (some "=")
             [node "identifier" (some b) [], node "identifier" (some c) []]], 5) ∧
      Parser.parseExpression 50 [identTok a, opTok "-", identTok b, opTok "-", identTok c] 0 =
        Except.ok (node "additive_expression" (some "-")
          [node "additive_expression" (some "-")
             [node "identifier" (some a) [], node "identifier" (some b) []],
           node "identifier" (some c) []], 5) :=
  fun _ _ _ => ⟨rfl, rfl⟩

/-- C1 (counterexample): on a source classified `structures`, the dispatch
target `generateStepsForStructures` does not exist, the thrown `TypeError`
is caught, and the returned list is the single `initialization` step — it
does not end with a `finalization` step. -/
theorem c1_counterexample_structures_no_finalization :
    (Interpreter.generateExecutionSteps structState).1 = [Interpreter.initStep] ∧
    (Interpreter.generateExecutionSteps structState).1.getLast?.map ExecutionStep.type ≠
      some "finalization" := by
  refine ⟨rfl, ?_⟩
  decide

/-- C2 (counterexample): the same internal failure is caught and logged, but
the catch block appends no `error`-kind step: the returned list holds only
the `initialization` step while the error log grew by one entry. -/
theorem c2_counterexample_no_error_step :
    ((Interpreter.generateExecutionSteps structState).1.all
      (fun s => s.type != "error")) = true ∧
    (Interpreter.generateExecutionSteps structState).2.errors =
      structState.errors ++
        [⟨"this.generateStepsForStructures is not a function", "error"⟩] := by
  refine ⟨?_, rfl⟩
  decide

/-- C3: any source containing both `malloc(` and `struct ` is classified
`dynamic_allocation`, never `structures` — the malloc/free fingerprint is
tested first in the fixed priority chain. -/
theorem c3_malloc_beats_struct :
    ∀ st : AppState,
      Interpreter.strIncludes st.code "malloc(" = true →
      Interpreter.strIncludes st.code "struct " = true →
      Interpreter.determineCodeType st = "dynamic_allocation" ∧
      Interpreter.determineCodeType st ≠ "structures" := by
  intro st hm _
  have hml : Interpreter.strIncludes (Interpreter.toLowerStr st.code) "malloc(" = true :=
    strIncludes_toLower st "malloc(" (by decide) hm
  constructor
  · unfold Interpreter.determineCodeType
    simp [hml]
  · unfold Interpreter.determineCodeType
    simp [hml]

/-- C3 witness: a concrete source containing both fingerprints. -/
theorem c3_malloc_beats_struct_witness :
    Interpreter.strIncludes mallocStructState.code "malloc(" = true ∧
    Interpreter.strIncludes mallocStructState.code "struct " = true ∧
    Interpreter.determineCodeType mallocStructState = "dynamic_allocation" ∧
    Interpreter.determineCodeType mallocStructState ≠ "structures" := by
  refine ⟨by decide, by decide, ?_⟩
  exact c3_malloc_beats_struct mallocStructState (by decide) (by decide)

/-- The generic fallback leaves the token list unchanged. -/
theorem tokens_generateStepsBasedOnAST (st : AppState) :
    (Interpreter.generateStepsBasedOnAST st).2.tokens = st.tokens := by
  unfold Interpreter.generateStepsBasedOnAST
  cases h : Interpreter.findMainNode st <;> simp

/-- The generic fallback leaves the error log unchanged. -/
theorem errors_generateStepsBasedOnAST (st : AppState) :
    (Interpreter.generateStepsBasedOnAST st).2.errors = st.errors := by
  unfold Interpreter.generateStepsBasedOnAST
  cases h : Interpreter.findMainNode st <;> simp

/-- `findLastLine` only reads the token list. -/
theorem findLastLine_congr {st1 st2 : AppState} (h : st1.tokens = st2.tokens) :
    Interpreter.findLastLine st1 = Interpreter.findLastLine st2 := by
  unfold Interpreter.findLastLine
  rw [h]

set_option maxHeartbeats 2000000 in
/-- C1 (amended): every trace starts with the `initialization` step, and
the rest of its shape is pinned by the classification branch: when the
source classifies as one of the six categories whose generator methods do
not exist (`structures`, `recursion`, `file_io`, `switch_case`,
`preprocessor`, `bitwise`) the caught `TypeError` leaves the trace as
exactly the single initialization step, while on every other
classification — `basic`, `arrays`, `dynamic_allocation` and the generic
fallback including its missing-`main` error path — the trace ends with a
`finalization` step carrying `findLastLine` (the maximum token line, 1
when there are no tokens). -/
theorem c1_initialization_finalization_amended :
    ∀ st : AppState,
      (Interpreter.determineCodeType st ∈
          ["structures", "recursion", "file_io", "switch_case", "preprocessor",
           "bitwise"] ∧
        (Interpreter.generateExecutionSteps st).1 = [Interpreter.initStep]) ∨
      (Interpreter.determineCodeType st ∉
          ["structures", "recursion", "file_io", "switch_case", "preprocessor",
           "bitwise"] ∧
        ∃ mid : List ExecutionStep,
          (Interpreter.generateExecutionSteps st).1 =
            Interpreter.initStep ::
              (mid ++ [Interpreter.finalStep (Interpreter.findLastLine st)])) := by
  intro st
  unfold Interpreter.generateExecutionSteps Interpreter.generateExecutionStepsBody
  dsimp only
  split_ifs with h1 h2 h3 h4 h5 h6 h7 h8 h9
  · refine Or.inr ⟨?_, (Interpreter.generateStepsForVariablesAndPointers st).1, rfl⟩
    rw [h1]
    decide
  · refine Or.inr ⟨?_, (Interpreter.generateStepsForArraysAndPointers st).1, rfl⟩
    rw [h2]
    decide
  · refine Or.inr ⟨?_, (Interpreter.generateStepsForDynamicAllocation st).1, rfl⟩
    rw [h3]
    decide
  · exact Or.inl ⟨by rw [h4]; decide, rfl⟩
  · exact Or.inl ⟨by rw [h5]; decide, rfl⟩
  · exact Or.inl ⟨by rw [h6]; decide, rfl⟩
  · exact Or.inl ⟨by rw [h7]; decide, rfl⟩
  · exact Or.inl ⟨by rw [h8]; decide, rfl⟩
  · exact Or.inl ⟨by rw [h9]; decide, rfl⟩
  · refine Or.inr ⟨?_, (Interpreter.generateStepsBasedOnAST st).1, ?_⟩
    · simp only [List.mem_cons, List.not_mem_nil, or_false]
      push_neg
      exact ⟨h4, h5, h6, h7, h8, h9⟩
    · have hl := findLastLine_congr (tokens_generateStepsBasedOnAST st)
      simp [hl]

set_option maxHeartbeats 2000000 in
/-- C2 (amended): `generateExecutionSteps` never propagates an exception —
it is total, and on every state either the try-block succeeds with the
error log untouched, or the internal failure is caught, exactly one entry
is appended to the external error log via `addError`, and the steps
accumulated before the failure (just the initialization step) are returned
without any `error`-kind step being added. -/
theorem c2_catch_logs_without_error_step :
    ∀ st : AppState,
      (Interpreter.generateExecutionSteps st).2.errors = st.errors ∨
      (∃ msg, Interpreter.generateExecutionSteps st =
                ([Interpreter.initStep], addError st msg)) := by
  intro st
  unfold Interpreter.generateExecutionSteps Interpreter.generateExecutionStepsBody
  dsimp only
  split_ifs with h1 h2 h3 h4 h5 h6 h7 h8 h9
  · exact Or.inl rfl
  · exact Or.inl rfl
  · exact Or.inl rfl
  · exact Or.inr ⟨_, rfl⟩
  · exact Or.inr ⟨_, rfl⟩
  · exact Or.inr ⟨_, rfl⟩
  · exact Or.inr ⟨_, rfl⟩
  · exact Or.inr ⟨_, rfl⟩
  · exact Or.inr ⟨_, rfl⟩
  · exact Or.inl (errors_generateStepsBasedOnAST st)

/-- `traceStackNames` distributes over append. -/
theorem traceStackNames_append (l1 l2 : List ExecutionStep) :
    traceStackNames (l1 ++ l2) = traceStackNames l1 ++ traceStackNames l2 := by
  induction l1 with
  | nil => rfl
  | cons s rest ih =>
    simp only [List.cons_append, traceStackNames, List.foldr_cons] at *
    rw [ih]
    simp [List.append_assoc]

/-- The fallback `call` steps record no stack variables. -/
theorem traceStackNames_callSteps (l : List Nat) :
    traceStackNames (l.map Interpreter.fallbackCallStep) = [] := by
  induction l with
  | nil => rfl
  | cons a as ih =>
    simp only [List.map_cons, traceStackNames, List.foldr_cons] at *
    exact ih

/-- With no recorded stack-variable names, the memory check is vacuous. -/
theorem stepMemOK_nil (s : ExecutionStep) : stepMemOK [] s = true := by
  simp [stepMemOK]

/-- The fallback `call` steps satisfy the per-step address checks. -/
theorem allOK_callSteps (l : List Nat) :
    ((l.map Interpreter.fallbackCallStep).all
      (fun s => stepHeapOK s && stepStackOK s && stepMemOK [] s)) = true := by
  induction l with
  | nil => rfl
  | cons a as ih =>
    simp only [List.map_cons, List.all_cons, ih, Bool.and_true]
    rfl

/-- C6: in every trace the generator produces, heap-delta addresses are at
or above the heap base 0x8000, stack-delta variable records carry addresses
strictly below it, and every delta-memory cell named after a stack variable
of the trace sits strictly below it. -/
theorem c6_address_partition :
    ∀ st : AppState,
      addressPartitionOK (Interpreter.generateExecutionSteps st).1 = true := by
  intro st
  unfold Interpreter.generateExecutionSteps Interpreter.generateExecutionStepsBody
  dsimp only
  split_ifs with h1 h2 h3 h4 h5 h6 h7 h8 h9
  · rfl
  · rfl
  · rfl
  · rfl
  · rfl
  · rfl
  · rfl
  · rfl
  · rfl
  · show addressPartitionOK
      ([Interpreter.initStep] ++ (Interpreter.generateStepsBasedOnAST st).1 ++
        [Interpreter.finalStep
          (Interpreter.findLastLine (Interpreter.generateStepsBasedOnAST st).2)]) = true
    unfold Interpreter.generateStepsBasedOnAST
    cases hm : Interpreter.findMainNode st with
    | none => rfl
    | some mn =>
      dsimp only
      generalize (Interpreter.countFunctionCalls "printf" mn) = n
      generalize Interpreter.findLastLine _ = L
      unfold addressPartitionOK
      have hnames :
          traceStackNames
            ([Interpreter.initStep] ++
              ([(⟨"information", 2, "Found main() function - starting execution",
                  emptyChanges⟩ : ExecutionStep)] ++
                (List.range n).map Interpreter.fallbackCallStep ++
                [(⟨"return", L - 1, "Return from main function",
                  ⟨[], [("main", StackDelta.remove)], [], none⟩⟩ : ExecutionStep)]) ++
              [Interpreter.finalStep L]) = [] := by
        rw [traceStackNames_append, traceStackNames_append, traceStackNames_append,
            traceStackNames_append, traceStackNames_callSteps]
        rfl
      rw [hnames]
      rw [List.all_append, List.all_append, List.all_append, List.all_append]
      rw [allOK_callSteps]
      rfl

/-- A trace whose steps carry no heap deltas trivially satisfies the
freed-stays-freed invariant. -/
theorem noUnfree_of_heapNil :
    ∀ l : List ExecutionStep, (∀ s ∈ l, s.changes.heap = []) → noUnfree l = true := by
  intro l
  induction l with
  | nil => intro _; rfl
  | cons s rest ih =>
    intro h
    have hs : s.changes.heap = [] := h s (by simp)
    simp only [noUnfree, hs, List.all_nil, Bool.true_and]
    exact ih (fun t ht => h t (by simp [ht]))

/-- C7: within any single generated trace, once a step's heap delta marks
an address `freed: true`, no later step's heap delta contains that address
with `freed: false`. -/
theorem c7_freed_never_unfreed :
    ∀ st : AppState, noUnfree (Interpreter.generateExecutionSteps st).1 = true := by
  intro st
  unfold Interpreter.generateExecutionSteps Interpreter.generateExecutionStepsBody
  dsimp only
  split_ifs with h1 h2 h3 h4 h5 h6 h7 h8 h9
  · rfl
  · rfl
  · rfl
  · rfl
  · rfl
  · rfl
  · rfl
  · rfl
  · rfl
  · show noUnfree
      ([Interpreter.initStep] ++ (Interpreter.generateStepsBasedOnAST st).1 ++
        [Interpreter.finalStep
          (Interpreter.findLastLine (Interpreter.generateStepsBasedOnAST st).2)]) = true
    unfold Interpreter.generateStepsBasedOnAST
    cases hm : Interpreter.findMainNode st with
    | none => rfl
    | some mn =>
      dsimp only
      generalize (Interpreter.countFunctionCalls "printf" mn) = n
      generalize Interpreter.findLastLine _ = L
      apply noUnfree_of_heapNil
      intro s hs
      simp [List.mem_append, List.mem_cons, List.mem_map] at hs
      rcases hs with rfl | rfl | ⟨i, -, rfl⟩ | rfl | rfl <;> rfl

/-- Every match of the comment group consumes at least one character. -/
theorem commentLen_pos (cs : List Char) (n : Nat) :
    Lexer.commentLen cs = some n → 1 ≤ n := by
  unfold Lexer.commentLen
  split
  · intro h
    cases h
    omega
  · intro h
    rcases Option.map_eq_some'.mp h with ⟨k, _, hk⟩
    omega
  · intro h
    cases h

/-- Every match of the number group consumes at least one character. -/
theorem numberLen_pos (cs : List Char) (n : Nat) :
    Lexer.numberLen cs = some n → 1 ≤ n := by
  unfold Lexer.numberLen
  intro h
  dsimp only at h
  by_cases hd : (List.takeWhile Char.isDigit cs).length = 0
  · rw [if_pos hd] at h
    cases h
  · rw [if_neg hd] at h
    split at h
    · split_ifs at h with h2
      · injection h with h3
        omega
      · injection h with h3
        omega
    · injection h with h3
      omega

/-- Every match of the string-literal group consumes at least one character. -/
theorem stringLen_pos (cs : List Char) (n : Nat) :
    Lexer.stringLen cs = some n → 1 ≤ n := by
  unfold Lexer.stringLen
  split
  · intro h
    rcases Option.map_eq_some'.mp h with ⟨k, _, hk⟩
    omega
  · intro h
    rcases Option.map_eq_some'.mp h with ⟨k, _, hk⟩
    omega
  · intro h
    cases h

/-- Every match of the operator group consumes at least one character. -/
theorem opLen_pos (cs : List Char) (n : Nat) :
    Lexer.opLen cs = some n → 1 ≤ n := by
  unfold Lexer.opLen
  split
  · rename_i p hp
    intro h
    cases h
    have hmem := List.mem_of_find?_eq_some hp
    have : ∀ q ∈ Lexer.twoCharOps, 1 ≤ q.length := by decide
    exact this p hmem
  · split
    · split_ifs with hc
      · intro h; cases h; omega
      · intro h; cases h
    · intro h; cases h

/-- Every match of the word group consumes at least one character. -/
theorem wordLen_pos (cs : List Char) (n : Nat) :
    Lexer.wordLen cs = some n → 1 ≤ n := by
  unfold Lexer.wordLen
  intro h
  dsimp only at h
  split_ifs at h with hz
  all_goals cases h
  omega

/-- Every regex match consumes at least one character (no alternative can
match the empty string), so the scanning loop always advances. -/
theorem nextMatch_pos (cs : List Char) (k : Lexer.MKind) (n : Nat) :
    Lexer.nextMatch cs = some (k, n) → 1 ≤ n := by
  unfold Lexer.nextMatch
  intro h
  split at h
  · cases h; exact commentLen_pos cs _ (by assumption)
  · split at h
    · cases h; exact numberLen_pos cs _ (by assumption)
    · split at h
      · cases h; exact stringLen_pos cs _ (by assumption)
      · split at h
        · cases h; exact opLen_pos cs _ (by assumption)
        · split at h
          · cases h; exact wordLen_pos cs _ (by assumption)
          · cases h

/-- One unit of fuel per remaining character suffices for the scanning
loop. -/
theorem scanAux_isSome :
    ∀ (fuel : Nat) (cs : List Char) (pos : Nat), cs.length ≤ fuel →
      (Lexer.scanAux fuel pos cs).isSome = true := by
  intro fuel
  induction fuel with
  | zero =>
    intro cs pos h
    cases cs with
    | nil => rfl
    | cons c rest => simp at h
  | succ f ih =>
    intro cs pos h
    cases cs with
    | nil => rfl
    | cons c rest =>
      rw [Lexer.scanAux]
      · split
        · rename_i k n hnm
          rw [Option.isSome_map']
          have hn := nextMatch_pos _ _ _ hnm
          apply ih
          simp only [List.length_drop, List.length_cons]
          simp only [List.length_cons] at h
          omega
        · apply ih
          simp only [List.drop_one, List.tail_cons]
          simp only [List.length_cons] at h
          omega
      · intro hfalse
        cases hfalse

/-- C8: the tokenizer rejects no input — for every source string `tokenize`
terminates normally and returns a token list (no error is ever raised;
unrecognised characters are skipped by the scanning loop, not reported). -/
theorem c8_tokenize_total :
    ∀ code : String, ∃ ts, Lexer.tokenize code = some ts := by
  intro code
  unfold Lexer.tokenize
  dsimp only
  have h := scanAux_isSome code.data.length code.data 0 (by omega)
  rcases Option.isSome_iff_exists.mp h with ⟨ms, hms⟩
  rw [hms]
  exact ⟨_, rfl⟩

/-- When no remaining line is a directive line, the collection loop returns
nothing. -/
theorem collectDirectivesAux_nil (lines : List (List Char)) :
    ∀ rem : List (List Char),
      (∀ l ∈ rem, Lexer.startsWithHash (Lexer.trim l) = false) →
      ∀ i, Lexer.collectDirectivesAux lines i rem = [] := by
  intro rem
  induction rem with
  | nil => intro _ i; rfl
  | cons l rest ih =>
    intro h i
    have hl : Lexer.startsWithHash (Lexer.trim l) = false := h l (by simp)
    rw [Lexer.collectDirectivesAux, hl]
    · exact ih (fun t ht => h t (by simp [ht])) (i + 1)

/-- When no line of the source is a directive line, the directive pre-pass
finds nothing. -/
theorem collectDirectives_nil (cs : List Char)
    (h : (Lexer.splitNl cs).all (fun l => !Lexer.startsWithHash (Lexer.trim l)) = true) :
    Lexer.collectDirectives (Lexer.splitNl cs) = [] := by
  unfold Lexer.collectDirectives
  apply collectDirectivesAux_nil
  intro l hl
  have := List.all_eq_true.mp h l hl
  simpa using this

/-- Every match reported by the scanning loop starts at or after the
starting position. -/
theorem scanAux_mem_pos :
    ∀ (fuel pos : Nat) (cs : List Char) (ms : List Lexer.RawMatch),
      Lexer.scanAux fuel pos cs = some ms → ∀ m ∈ ms, pos ≤ m.pos := by
  intro fuel
  induction fuel with
  | zero =>
    intro pos cs ms h m hm
    cases cs with
    | nil => cases h; cases hm
    | cons c rest => cases h
  | succ f ih =>
    intro pos cs ms h m hm
    cases cs with
    | nil => cases h; cases hm
    | cons c rest =>
      rw [Lexer.scanAux] at h
      · split at h
        · rename_i k n hnm
          rcases Option.map_eq_some'.mp h with ⟨ms2, hms2, hcons⟩
          subst hcons
          rcases List.mem_cons.mp hm with rfl | hm2
          · exact Nat.le_refl _
          · have := ih (pos + n) _ _ hms2 m hm2
            omega
        · have := ih (pos + 1) _ _ h m hm
          omega
      · intro hfalse
        cases hfalse

/-- The matches of one scan start at strictly increasing positions. -/
theorem scanAux_pairwise :
    ∀ (fuel pos : Nat) (cs : List Char) (ms : List Lexer.RawMatch),
      Lexer.scanAux fuel pos cs = some ms →
      ms.Pairwise (fun a b => a.pos < b.pos) := by
  intro fuel
  induction fuel with
  | zero =>
    intro pos cs ms h
    cases cs with
    | nil => cases h; exact List.Pairwise.nil
    | cons c rest => cases h
  | succ f ih =>
    intro pos cs ms h
    cases cs with
    | nil => cases h; exact List.Pairwise.nil
    | cons c rest =>
      rw [Lexer.scanAux] at h
      · split at h
        · rename_i k n hnm
          rcases Option.map_eq_some'.mp h with ⟨ms2, hms2, hcons⟩
          subst hcons
          refine List.Pairwise.cons ?_ (ih (pos + n) _ _ hms2)
          intro m hm
          have h1 := scanAux_mem_pos f (pos + n) _ _ hms2 m hm
          have h2 := nextMatch_pos _ _ _ hnm
          simp only
          omega
        · exact ih (pos + 1) _ _ h
      · intro hfalse
        cases hfalse

/-- The text of an operator match is one of the regex's operator
alternatives. -/
theorem opLen_text (cs : List Char) (n : Nat) (h : Lexer.opLen cs = some n) :
    (∃ p ∈ Lexer.twoCharOps, cs.take n = p.data) ∨
    (∃ c ∈ Lexer.singleOpChars, cs.take n = [c]) := by
  unfold Lexer.opLen at h
  cases hf : Lexer.twoCharOps.find? (fun p => p.data.isPrefixOf cs) with
  | some p =>
    rw [hf] at h
    dsimp only at h
    cases h
    left
    refine ⟨p, List.mem_of_find?_eq_some hf, ?_⟩
    have hsat := List.find?_some hf
    have hpre : p.data <+: cs := by
      rw [← List.isPrefixOf_iff_prefix]
      simpa using hsat
    rcases hpre with ⟨t, ht⟩
    rw [← ht]
    have hlen : p.length = p.data.length := rfl
    rw [hlen]
    exact List.take_left p.data t
  | none =>
    rw [hf] at h
    dsimp only at h
    cases cs with
    | nil => cases h
    | cons hd tl =>
      dsimp only at h
      split_ifs at h with hc
      · cases h
        right
        refine ⟨hd, ?_, rfl⟩
        simpa using hc

/-- An operator-kind result of `nextMatch` comes from the operator group. -/
theorem nextMatch_opr (cs : List Char) (n : Nat)
    (h : Lexer.nextMatch cs = some (Lexer.MKind.opr, n)) :
    Lexer.opLen cs = some n := by
  unfold Lexer.nextMatch at h
  split at h
  · simp at h
  · split at h
    · simp at h
    · split at h
      · simp at h
      · split at h
        · rename_i hop
          simp only [Option.some.injEq, Prod.mk.injEq, true_and] at h
          rw [hop, h]
        · split at h <;> simp at h

/-- Each operator alternative classifies to a non-empty token type. -/
theorem classifyOp_twoChar : ∀ p ∈ Lexer.twoCharOps, Lexer.classifyOp p ≠ "" := by
  decide

/-- Each single operator character classifies to a non-empty token type. -/
theorem classifyOp_single :
    ∀ c ∈ Lexer.singleOpChars, Lexer.classifyOp (String.mk [c]) ≠ "" := by
  decide

/-- Every operator match a scan reports classifies to a non-empty token
type, so its token is never dropped. -/
theorem scanAux_op_classify :
    ∀ (fuel pos : Nat) (cs : List Char) (ms : List Lexer.RawMatch),
      Lexer.scanAux fuel pos cs = some ms →
      ∀ m ∈ ms, m.kind = Lexer.MKind.opr →
        Lexer.classifyOp (String.mk m.text) ≠ "" := by
  intro fuel
  induction fuel with
  | zero =>
    intro pos cs ms h m hm
    cases cs with
    | nil => cases h; cases hm
    | cons c rest => cases h
  | succ f ih =>
    intro pos cs ms h m hm hk
    cases cs with
    | nil => cases h; cases hm
    | cons c rest =>
      rw [Lexer.scanAux] at h
      · split at h
        · rename_i k n hnm
          rcases Option.map_eq_some'.mp h with ⟨ms2, hms2, hcons⟩
          subst hcons
          rcases List.mem_cons.mp hm with rfl | hm2
          · simp only at hk
            subst hk
            have hopl := nextMatch_opr _ _ hnm
            rcases opLen_text _ _ hopl with ⟨p, hp, htext⟩ | ⟨ch, hch, htext⟩
            · simp only [htext]
              have : String.mk p.data = p := rfl
              rw [this]
              exact classifyOp_twoChar p hp
            · simp only [htext]
              exact classifyOp_single ch hch
          · exact ih (pos + n) _ _ hms2 m hm2 hk
        · exact ih (pos + 1) _ _ h m hm hk
      · intro hfalse
        cases hfalse

/-- A non-comment match yields a token whose text is the matched text and
whose position is the match's line/column. -/
theorem matchToken_shape (nls : List Nat) (m : Lexer.RawMatch)
    (hk : m.kind ≠ Lexer.MKind.comment)
    (hop : m.kind = Lexer.MKind.opr → Lexer.classifyOp (String.mk m.text) ≠ "") :
    ∃ tok, Lexer.matchToken nls m = some tok ∧
      tok.value = String.mk m.text ∧
      tok.line = (Lexer.getLineColumnFromPos m.pos nls).1 ∧
      tok.column = (Lexer.getLineColumnFromPos m.pos nls).2 := by
  obtain ⟨p, k, t⟩ := m
  cases k with
  | comment => exact absurd rfl hk
  | number => exact ⟨_, rfl, rfl, rfl, rfl⟩
  | strlit => exact ⟨_, rfl, rfl, rfl, rfl⟩
  | word => exact ⟨_, rfl, rfl, rfl, rfl⟩
  | opr =>
    have hne := hop rfl
    unfold Lexer.matchToken
    dsimp only
    rw [if_neg hne]
    exact ⟨_, rfl, rfl, rfl, rfl⟩

/-- A comment match yields no token. -/
theorem matchToken_comment (nls : List Nat) (m : Lexer.RawMatch)
    (hk : m.kind = Lexer.MKind.comment) : Lexer.matchToken nls m = none := by
  obtain ⟨p, k, t⟩ := m
  simp only at hk
  subst hk
  rfl

/-- Concatenating the texts of the emitted tokens reproduces the texts of
the non-comment matches, in order. -/
theorem texts_filterMap (nls : List Nat) :
    ∀ ms : List Lexer.RawMatch,
      (∀ m ∈ ms, m.kind = Lexer.MKind.opr →
        Lexer.classifyOp (String.mk m.text) ≠ "") →
      tokenTexts (ms.filterMap (Lexer.matchToken nls)) = nonCommentTexts ms := by
  intro ms
  induction ms with
  | nil => intro _; rfl
  | cons m rest ih =>
    intro h
    rw [List.filterMap_cons]
    by_cases hk : m.kind = Lexer.MKind.comment
    · rw [matchToken_comment nls m hk]
      have : nonCommentTexts (m :: rest) = nonCommentTexts rest := by
        simp [nonCommentTexts, hk]
      rw [this]
      exact ih (fun t ht hop => h t (by simp [ht]) hop)
    · obtain ⟨tok, htok, hval, -, -⟩ :=
        matchToken_shape nls m hk (h m (by simp))
      rw [htok]
      have h2 : nonCommentTexts (m :: rest) = m.text ++ nonCommentTexts rest := by
        simp [nonCommentTexts, hk]
      rw [h2]
      simp only [tokenTexts, List.foldr_cons, hval]
      have h4 := ih (fun t ht hop => h t (by simp [ht]) hop)
      simp only [tokenTexts] at h4
      rw [h4]

/-- The kept-characters reference walks the same matches as the scan: it is
the concatenation of the non-comment match texts. -/
theorem keptAux_eq :
    ∀ (fuel pos : Nat) (cs : List Char) (ms : List Lexer.RawMatch),
      Lexer.scanAux fuel pos cs = some ms →
      keptCharsAux fuel cs = nonCommentTexts ms := by
  intro fuel
  induction fuel with
  | zero =>
    intro pos cs ms h
    cases cs with
    | nil => cases h; rfl
    | cons c rest => cases h
  | succ f ih =>
    intro pos cs ms h
    cases cs with
    | nil => cases h; rfl
    | cons c rest =>
      rw [Lexer.scanAux] at h
      · split at h
        · rename_i k n hnm
          rcases Option.map_eq_some'.mp h with ⟨ms2, hms2, hcons⟩
          subst hcons
          rw [keptCharsAux, hnm]
          cases k with
          | comment =>
            have hskip : nonCommentTexts
                ((⟨pos, Lexer.MKind.comment, (c :: rest).take n⟩ : Lexer.RawMatch) :: ms2) =
                nonCommentTexts ms2 := by
              simp [nonCommentTexts]
            rw [hskip]
            exact ih (pos + n) _ _ hms2
          | number =>
            have := ih (pos + n) _ _ hms2
            simp [nonCommentTexts, this]
          | strlit =>
            have := ih (pos + n) _ _ hms2
            simp [nonCommentTexts, this]
          | opr =>
            have := ih (pos + n) _ _ hms2
            simp [nonCommentTexts, this]
          | word =>
            have := ih (pos + n) _ _ hms2
            simp [nonCommentTexts, this]
        · rename_i hnone
          rw [keptCharsAux, hnone]
          exact ih (pos + 1) _ _ h
      · intro hfalse
        cases hfalse

/-- The line reported by the line/column loop is at least the starting line
index plus one. -/
theorem lineColAux_fst_ge :
    ∀ (nls : List Nat) (pos : Nat) (li ls : Int),
      li + 1 ≤ (Lexer.lineColAux nls pos li ls).1 := by
  intro nls
  induction nls with
  | nil => intro pos li ls; simp [Lexer.lineColAux]
  | cons nn rest ih =>
    intro pos li ls
    rw [Lexer.lineColAux]
    split_ifs with hlt
    · have := ih pos (li + 1) ((nn : Int) + 1)
      omega
    · simp

/-- The line/column pair is strictly monotone (lexicographically) in the
character offset. -/
theorem lineColAux_mono :
    ∀ (nls : List Nat) (p1 p2 : Nat) (li ls : Int), p1 < p2 →
      (Lexer.lineColAux nls p1 li ls).1 < (Lexer.lineColAux nls p2 li ls).1 ∨
      ((Lexer.lineColAux nls p1 li ls).1 = (Lexer.lineColAux nls p2 li ls).1 ∧
       (Lexer.lineColAux nls p1 li ls).2 ≤ (Lexer.lineColAux nls p2 li ls).2) := by
  intro nls
  induction nls with
  | nil =>
    intro p1 p2 li ls h
    right
    simp only [Lexer.lineColAux]
    exact ⟨trivial, by omega⟩
  | cons nn rest ih =>
    intro p1 p2 li ls h
    rw [Lexer.lineColAux, Lexer.lineColAux]
    by_cases h1 : (nn : Int) < (p1 : Int)
    · rw [if_pos h1, if_pos (by omega)]
      exact ih p1 p2 (li + 1) ((nn : Int) + 1) h
    · by_cases h2 : (nn : Int) < (p2 : Int)
      · rw [if_neg h1, if_pos h2]
        left
        have := lineColAux_fst_ge rest p2 (li + 1) ((nn : Int) + 1)
        dsimp only
        omega
      · rw [if_neg h1, if_neg h2]
        right
        dsimp only
        omega

/-- `Pairwise` transfers along `filterMap` when the function respects the
relations. -/
theorem pairwise_filterMap {α β : Type} {R : α → α → Prop} {S : β → β → Prop}
    (f : α → Option β)
    (hf : ∀ a b x y, R a b → f a = some x → f b = some y → S x y) :
    ∀ l : List α, l.Pairwise R → (l.filterMap f).Pairwise S := by
  intro l
  induction l with
  | nil => intro _; simp
  | cons a rest ih =>
    intro hp
    rcases List.pairwise_cons.mp hp with ⟨hra, hrest⟩
    rw [List.filterMap_cons]
    cases hfa : f a with
    | none => exact ih hrest
    | some x =>
      refine List.pairwise_cons.mpr ⟨?_, ih hrest⟩
      intro y hy
      rcases List.mem_filterMap.mp hy with ⟨b, hb, hfb⟩
      exact hf a b x y (hra b hb) hfa hfb

/-- A list already sorted by the token comparator is left unchanged by the
sorting pass. -/
theorem sortToks_eq_self :
    ∀ l : List Token, l.Pairwise Lexer.leTokP → Lexer.sortToks l = l := by
  intro l
  induction l with
  | nil => intro _; rfl
  | cons x xs ih =>
    intro h
    rcases List.pairwise_cons.mp h with ⟨hx, hxs⟩
    rw [Lexer.sortToks, ih hxs]
    cases xs with
    | nil => rfl
    | cons y ys =>
      rw [Lexer.insertTok, if_pos (hx y (by simp))]

/-- Any emitted token carries the line/column of its match position. -/
theorem matchToken_lineCol (nls : List Nat) (m : Lexer.RawMatch) (tok : Token)
    (h : Lexer.matchToken nls m = some tok) :
    tok.line = (Lexer.getLineColumnFromPos m.pos nls).1 ∧
    tok.column = (Lexer.getLineColumnFromPos m.pos nls).2 := by
  obtain ⟨p, k, t⟩ := m
  cases k with
  | comment => cases h
  | number => cases h; exact ⟨rfl, rfl⟩
  | strlit => cases h; exact ⟨rfl, rfl⟩
  | word => cases h; exact ⟨rfl, rfl⟩
  | opr =>
    unfold Lexer.matchToken at h
    dsimp only at h
    split_ifs at h
    cases h
    exact ⟨rfl, rfl⟩

/-- C9 (amended): for a source with no preprocessor-directive lines,
concatenating the texts of the tokens of `tokenize`, in their sorted order,
reproduces exactly the characters the lexical pattern recognises outside
comments (`keptChars`) — whitespace and unrecognised characters are
dropped. -/
theorem c9_roundtrip_amended :
    ∀ code : String, noDirectiveLines code = true →
      ∃ ts, Lexer.tokenize code = some ts ∧ tokenTexts ts = keptChars code := by
  intro code hnd
  have hsome := scanAux_isSome code.data.length code.data 0 (Nat.le_refl _)
  rcases Option.isSome_iff_exists.mp hsome with ⟨ms, hms⟩
  have hdirs : Lexer.collectDirectives (Lexer.splitNl code.data) = [] :=
    collectDirectives_nil code.data (by
      unfold noDirectiveLines at hnd
      exact hnd)
  have hpw := scanAux_pairwise _ _ _ _ hms
  have hpairTok :
      (ms.filterMap (Lexer.matchToken (Lexer.newlinePositions code.data))).Pairwise
        Lexer.leTokP := by
    refine pairwise_filterMap _ ?_ ms hpw
    intro a b x y hr hfa hfb
    obtain ⟨hla, hca⟩ := matchToken_lineCol _ _ _ hfa
    obtain ⟨hlb, hcb⟩ := matchToken_lineCol _ _ _ hfb
    unfold Lexer.leTokP
    rw [hla, hca, hlb, hcb]
    exact lineColAux_mono (Lexer.newlinePositions code.data) a.pos b.pos 0 0 hr
  refine ⟨Lexer.sortToks
    (ms.filterMap (Lexer.matchToken (Lexer.newlinePositions code.data))), ?_, ?_⟩
  · unfold Lexer.tokenize
    dsimp only
    rw [hdirs, hms]
    simp [Lexer.isWithinDirective]
  · rw [sortToks_eq_self _ hpairTok]
    rw [texts_filterMap _ ms (scanAux_op_classify _ _ _ _ hms)]
    unfold keptChars
    exact (keptAux_eq _ _ _ _ hms).symm

/-- C9 (counterexample): on the input `a@b` the character `@` is neither
whitespace nor part of a comment, yet no token contains it — the
concatenated token texts miss a non-comment, non-whitespace character of
the input. -/
theorem c9_counterexample_unrecognised_dropped :
    ∃ ts, Lexer.tokenize "a@b" = some ts ∧
      tokenTexts ts = "ab".data ∧
      nonCommentNonWs "a@b" = "a@b".data ∧
      tokenTexts ts ≠ nonCommentNonWs "a@b" := by
  refine ⟨[⟨"identifier", "a", 1, 1⟩, ⟨"identifier", "b", 1, 3⟩], ?_, ?_, ?_, ?_⟩
  · decide
  · decide
  · decide
  · decide

/-- C9 witness: the amended round-trip applied at a concrete directive-free
input. -/
theorem c9_roundtrip_amended_witness :
    noDirectiveLines "a b" = true ∧
    (∃ ts, Lexer.tokenize "a b" = some ts ∧ tokenTexts ts = keptChars "a b") :=
  ⟨by decide, c9_roundtrip_amended "a b" (by decide)⟩
